import Mathlib

/-
  Shallow embedding of the zilla-script step-execution engine.

  Sources embedded:
    * helpers.js   (compare helper, evalTpl, walk, evalArgWithType)
    * extract.ts   (extract)
    * handler.ts   (runStepHandlers)
    * stepUtil.ts  (processStep, resolveServer, editVars, getBody, ...)
    * step.ts      (runScriptSteps, the recursive step runner)
    * util.ts      (headerName, firstHeader)

  JavaScript values are modelled by `JVal`; JS numbers are modelled by
  rationals (exact for the integer and finite-decimal values the engine
  manipulates; IEEE-754 rounding and NaN are outside the model).
  JS objects are modelled as insertion-ordered association lists; object
  identity (reference aliasing) is modelled separately where a claim
  depends on it.  External collaborators (HTTP transport, file loading,
  the Handlebars check-expression compiler, JSONPath, zilla-util deepGet)
  are explicit parameters, so theorems quantify over their behaviour.
-/

namespace Zilla

/-- Model of a JavaScript/JSON value as manipulated by the engine.
`undef` models JS `undefined` (distinct from `null`). Numbers are
rationals. -/
inductive JVal where
  | undef : JVal
  | null : JVal
  | bool : Bool → JVal
  | num : Rat → JVal
  | str : String → JVal
  | arr : List JVal → JVal
  | obj : List (String × JVal) → JVal
deriving Repr

/-- Association-list lookup, modelling JS property read `m[k]`
(first binding wins; absent keys read as no value). -/
def alookup {α : Type} : List (String × α) → String → Option α
  | [], _ => none
  | (k, v) :: rest, key => if k = key then some v else alookup rest key

/-- Association-list write, modelling JS property assignment `m[k] = v`:
an existing key keeps its position, a new key is appended. -/
def aset {α : Type} : List (String × α) → String → α → List (String × α)
  | [], key, v => [(key, v)]
  | (k, w) :: rest, key, v =>
      if k = key then (k, v) :: rest else (k, w) :: aset rest key v

/-- Keys of an association list, in order (models `Object.keys`). -/
def akeys {α : Type} (m : List (String × α)) : List String := m.map Prod.fst

/-- Models the JS spread `{...a, ...b}`: entries of `b` written over `a`. -/
def aspread {α : Type} (a b : List (String × α)) : List (String × α) :=
  b.foldl (fun acc kv => aset acc kv.1 kv.2) a

/-- JS truthiness of a value (`if (v)`).  NaN is outside the model. -/
def JVal.truthy : JVal → Bool
  | .undef => false
  | .null => false
  | .bool b => b
  | .num q => q ≠ 0
  | .str s => s ≠ ""
  | .arr _ => true
  | .obj _ => true

/-- `typeof v` as a string (note JS `typeof null === "object"`). -/
def JVal.typeofStr : JVal → String
  | .undef => "undefined"
  | .null => "object"
  | .bool _ => "boolean"
  | .num _ => "number"
  | .str _ => "string"
  | .arr _ => "object"
  | .obj _ => "object"

/-- `isComparable` from helpers.js: string or number. -/
def isComparable : JVal → Bool
  | .str _ => true
  | .num _ => true
  | _ => false

/-- Decimal digits of the fractional part `r/d`, up to `fuel` digits
(JS prints the shortest round-tripping decimal of a float; for the
finite decimals the engine manipulates this expansion is exact). -/
def decDigits : Nat → Nat → Nat → List Char
  | _, _, 0 => []
  | r, d, fuel + 1 =>
      if r = 0 then []
      else
        let r10 := r * 10
        Char.ofNat (48 + r10 / d) :: decDigits (r10 % d) d fuel

/-- Decimal digits of a natural number, most significant first (the
fuel always suffices when it exceeds the number of digits). -/
def natDigits : Nat → Nat → List Char
  | 0, _ => []
  | fuel + 1, n =>
      if n < 10 then [Char.ofNat (48 + n)]
      else natDigits fuel (n / 10) ++ [Char.ofNat (48 + n % 10)]

/-- Characters of a non-negative rational, JS `String(number)` style. -/
def nonnegRatChars (q : Rat) : List Char :=
  let n := q.num.toNat
  let d := q.den
  let r := n % d
  if r = 0 then natDigits (n / d + 1) (n / d)
  else natDigits (n / d + 1) (n / d) ++ '.' :: decDigits r d 40

/-- Model of JS number-to-string conversion. -/
def numToString (q : Rat) : String :=
  if q < 0 then String.mk ('-' :: nonnegRatChars (-q))
  else String.mk (nonnegRatChars q)

mutual
/-- Model of JS `String(v)` string coercion (as applied by template
substitution and string concatenation). Arrays stringify by joining
element strings with commas, `null`/`undefined` elements joining as
empty; plain objects stringify to "[object Object]". -/
def jsToString : JVal → String
  | .undef => "undefined"
  | .null => "null"
  | .bool b => if b then "true" else "false"
  | .num q => numToString q
  | .str s => s
  | .arr xs => String.intercalate "," (jsToStringElems xs)
  | .obj _ => "[object Object]"

/-- Element strings for array join (null/undefined become empty). -/
def jsToStringElems : List JVal → List String
  | [] => []
  | .undef :: rest => "" :: jsToStringElems rest
  | .null :: rest => "" :: jsToStringElems rest
  | v :: rest => jsToString v :: jsToStringElems rest
end

/-- Prefix test on character lists. -/
def listStarts : List Char → List Char → Bool
  | _, [] => true
  | [], _ :: _ => false
  | a :: as, b :: bs => a == b && listStarts as bs

/-- `String.toLower` (character-list implementation). -/
def jsToLower (s : String) : String := String.mk (s.data.map Char.toLower)

/-- `String.trim` (character-list implementation). -/
def jsTrim (s : String) : String :=
  String.mk (((s.data.dropWhile Char.isWhitespace).reverse.dropWhile
    Char.isWhitespace).reverse)

/-- `String.startsWith` (character-list implementation). -/
def strStarts (s p : String) : Bool := listStarts s.data p.data

/-- `String.endsWith` (character-list implementation). -/
def strEnds (s p : String) : Bool := listStarts s.data.reverse p.data.reverse

/-- `String.contains` for one character (character-list implementation). -/
def strHasChar (s : String) (c : Char) : Bool := s.data.contains c

/-- Split on a single-character separator (the `path.split(".")` shape
used for dotted scope paths). -/
def splitOnChar (sep : Char) (s : String) : List String :=
  let parts := s.data.foldr
    (fun c (acc : List (List Char)) =>
      match acc with
      | cur :: rest => if c = sep then [] :: cur :: rest else (c :: cur) :: rest
      | [] => [[c]])
    [[]]
  parts.map String.mk

/-! ## JSON-number strings and numeric coercion (helpers.js lines 4, 33-58) -/

/-- One or more decimal digits. -/
def allDigits (cs : List Char) : Bool :=
  match cs with
  | [] => false
  | _ => cs.all (fun c => c.isDigit)

/-- Integer part of the JSON number grammar: `0` or a nonzero digit
followed by digits. -/
def jsonIntPart : List Char → Option (List Char)
  | '0' :: rest => some rest
  | c :: rest =>
      if c.isDigit then some (rest.dropWhile Char.isDigit) else none
  | [] => none

/-- Fraction part `(\.\d+)?` of the JSON number grammar. -/
def jsonFracPart : List Char → Option (List Char)
  | '.' :: rest =>
      let digits := rest.takeWhile Char.isDigit
      if digits.isEmpty then none else some (rest.dropWhile Char.isDigit)
  | cs => some cs

/-- Exponent part `([eE][+-]?\d+)?`; the engine lowercases first, so only
`e` appears. -/
def jsonExpPart : List Char → Option (List Char)
  | 'e' :: rest =>
      let rest2 := match rest with
        | '+' :: r => r
        | '-' :: r => r
        | r => r
      let digits := rest2.takeWhile Char.isDigit
      if digits.isEmpty then none else some (rest2.dropWhile Char.isDigit)
  | cs => some cs

/-- Model of `jsonNumberRegex.test(s)` for the lowercased string `s`:
the regex is `^-?(?:0|[1-9]\d*)(?:\.\d+)?(?:[eE][+-]?\d+)?$`. -/
def isJsonNumberString (s : String) : Bool :=
  let cs := match s.data with
    | '-' :: rest => rest
    | cs => cs
  match jsonIntPart cs with
  | none => false
  | some afterInt =>
      match jsonFracPart afterInt with
      | none => false
      | some afterFrac =>
          match jsonExpPart afterFrac with
          | none => false
          | some afterExp => afterExp.isEmpty

/-- Numeric value of a digit list (most significant first). -/
def digitsToNat (cs : List Char) : Nat :=
  cs.foldl (fun acc c => acc * 10 + (c.toNat - 48)) 0

/-- Value of a string matching the JSON number grammar, as a rational
(models JS `parseFloat` on such strings; exact for finite decimals). -/
def parseJsonRat (s : String) : Rat :=
  let (neg, cs) := match s.data with
    | '-' :: rest => (true, rest)
    | cs => (false, cs)
  let intDigits := cs.takeWhile Char.isDigit
  let afterInt := cs.dropWhile Char.isDigit
  let (fracDigits, afterFrac) := match afterInt with
    | '.' :: rest => (rest.takeWhile Char.isDigit, rest.dropWhile Char.isDigit)
    | rest => ([], rest)
  let expVal : Int := match afterFrac with
    | 'e' :: '-' :: rest => -(Int.ofNat (digitsToNat (rest.takeWhile Char.isDigit)))
    | 'e' :: '+' :: rest => Int.ofNat (digitsToNat (rest.takeWhile Char.isDigit))
    | 'e' :: rest => Int.ofNat (digitsToNat (rest.takeWhile Char.isDigit))
    | _ => 0
  let mantNum : Nat := digitsToNat (intDigits ++ fracDigits)
  let e : Int := expVal - fracDigits.length
  let n : Int := if neg then -(mantNum : Int) else (mantNum : Int)
  if e ≥ 0 then mkRat (n * (10 : Int) ^ e.toNat) 1
  else mkRat n ((10 : Nat) ^ (-e).toNat)

/-- Model of JS `parseInt` on a string matching the integer-only JSON
number grammar (no dot, no exponent). -/
def parseJsonInt (s : String) : Rat :=
  match s.data with
  | '-' :: rest => -((digitsToNat (rest.takeWhile Char.isDigit) : Int) : Rat)
  | cs => ((digitsToNat (cs.takeWhile Char.isDigit) : Nat) : Rat)

/-- The numeric coercion of helpers.js lines 36-44 / 48-56: lowercase the
string; if it looks like a JSON number, parse it (parseInt when it has
no `.` and no `e`, parseFloat otherwise), else leave the string alone. -/
def coerceNumericString (s : String) : JVal :=
  let lower := jsToLower s
  if isJsonNumberString lower then
    if strHasChar lower '.' || strHasChar lower 'e'
    then .num (parseJsonRat lower)
    else .num (parseJsonInt lower)
  else .str s

/-! ## Equality and relational semantics used by the compare helper -/

/-- JS `ToNumber` on the primitive values the compare helper meets
(`none` models NaN). -/
def toNumberOpt : JVal → Option Rat
  | .undef => none
  | .null => some 0
  | .bool b => some (if b then 1 else 0)
  | .num q => some q
  | .str s =>
      let t := jsTrim s
      if t = "" then some 0
      else if isJsonNumberString (jsToLower t) then some (parseJsonRat (jsToLower t))
      else none
  | .arr _ => none
  | .obj _ => none

/-- Model of JS loose equality `l == r` for the values reaching the
compare helper.  Primitive pairs follow the ECMAScript algorithm;
distinct composite values compare unequal (reference identity of
JS objects is not representable in a pure value model, so the model
treats every composite operand as a fresh reference). -/
def looseEq : JVal → JVal → Bool
  | .undef, .undef => true
  | .undef, .null => true
  | .null, .undef => true
  | .null, .null => true
  | .str a, .str b => a == b
  | .num a, .num b => a == b
  | .bool a, .bool b => a == b
  | .num a, .str b => (toNumberOpt (.str b)).any (fun q => q == a)
  | .str a, .num b => (toNumberOpt (.str a)).any (fun q => q == b)
  | .bool a, .num b => (if a then (1 : Rat) else 0) == b
  | .num a, .bool b => a == (if b then (1 : Rat) else 0)
  | .bool a, .str b => (toNumberOpt (.str b)).any (fun q => q == (if a then (1 : Rat) else 0))
  | .str a, .bool b => (toNumberOpt (.str a)).any (fun q => q == (if b then (1 : Rat) else 0))
  | _, _ => false

/-- Model of JS strict equality `===` on primitives; composite operands
compare unequal (fresh references, see `looseEq`). -/
def strictEqPrim : JVal → JVal → Bool
  | .undef, .undef => true
  | .null, .null => true
  | .str a, .str b => a == b
  | .num a, .num b => a == b
  | .bool a, .bool b => a == b
  | _, _ => false

/-- JS abstract relational comparison for the operand kinds the compare
helper dispatches on: two strings compare lexicographically, otherwise
both sides convert to numbers and NaN makes every comparison false. -/
def jsLess : JVal → JVal → Bool
  | .str a, .str b => decide (a < b)
  | l, r =>
      match toNumberOpt l, toNumberOpt r with
      | some a, some b => decide (a < b)
      | _, _ => false

/-- Companion of `jsLess` for `<=` (false when either side is NaN). -/
def jsLessEq : JVal → JVal → Bool
  | .str a, .str b => decide (a ≤ b)
  | l, r =>
      match toNumberOpt l, toNumberOpt r with
      | some a, some b => decide (a ≤ b)
      | _, _ => false

/-- Substring containment, modelling JS `String.prototype.includes`. -/
def strContains (a b : String) : Bool :=
  a.data.tails.any (fun t => listStarts t b.data)

/-- zilla-util `isEmpty`, modelled from the spec: true when the value is
`null`, `undefined`, the empty string, or the empty array. -/
def isEmptyVal : JVal → Bool
  | .undef => true
  | .null => true
  | .str s => s = ""
  | .arr xs => xs.isEmpty
  | _ => false

/-- True when the value is JS `undefined`. -/
def isUndef : JVal → Bool
  | .undef => true
  | _ => false

/-- String form of the right operand for JS string methods
(`startsWith`/`endsWith`/`includes` convert their argument ToString). -/
def opString : JVal → String
  | .str s => s
  | v => jsToString v

/-- The string-family operator evaluation (stringOps of helpers.js):
the left operand is a string here except for `includes`/`notIncludes`,
whose guard also lets arrays and objects (and `null`, since JS
`typeof null === "object"`) through.  `a.includes(b)` on an array is
element membership by `===`; on a plain object or `null` the method does
not exist and a TypeError escapes the helper. -/
def stringOpApply (op : String) (l r : JVal) : Except String Bool :=
  if op = ">" then .ok (jsLess r l)
  else if op = ">=" then .ok (jsLessEq r l)
  else if op = "<" then .ok (jsLess l r)
  else if op = "<=" then .ok (jsLessEq l r)
  else if op = "startsWith" ∨ op = "notStartsWith" then
    match l with
    | .str s =>
        let b := strStarts s (opString r)
        .ok (if op = "startsWith" then b else !b)
    | _ => .error s!"unsupported operator {op}"
  else if op = "endsWith" ∨ op = "notEndsWith" then
    match l with
    | .str s =>
        let b := strEnds s (opString r)
        .ok (if op = "endsWith" then b else !b)
    | _ => .error s!"unsupported operator {op}"
  else if op = "includes" ∨ op = "notIncludes" then
    match l with
    | .str s =>
        let b := strContains s (opString r)
        .ok (if op = "includes" then b else !b)
    | .arr xs =>
        let b := xs.any (fun x => strictEqPrim x r)
        .ok (if op = "includes" then b else !b)
    | _ => .error "TypeError: includes is not a function"
  else .error s!"unsupported operator {op}"

/-- The numeric-family operator evaluation (numericOps of helpers.js):
only the four relational operators exist for a numeric left operand, so
a string-family operator reaching this table reports it unsupported. -/
def numericOpApply (op : String) (l r : JVal) : Except String Bool :=
  if op = ">" then .ok (jsLess r l)
  else if op = ">=" then .ok (jsLessEq r l)
  else if op = "<" then .ok (jsLess l r)
  else if op = "<=" then .ok (jsLessEq l r)
  else .error s!"unsupported operator {op}"

/-- Operator-table dispatch of helpers.js line 77: the numeric table
when the (possibly coerced) left operand is a number, else the string
table. -/
def compareDispatch (op : String) (l r : JVal) : Except String Bool :=
  match l with
  | .num _ => numericOpApply op l r
  | _ => stringOpApply op l r

/-- The `compare` Handlebars helper of helpers.js lines 5-81.  Follows
the source control flow: unary checks first, loose equality for
`==`/`!=`, the comparability guards (with the wider string/array/object
guard for `includes`/`notIncludes`), the one-sided numeric coercion of a
numeric-looking string when the other operand is a number, then dispatch
through the numeric or string operator table by the (possibly coerced)
left operand type. -/
def compare (l₀ : JVal) (op : String) (r₀ : JVal) : Except String Bool :=
  if op = "empty" then .ok (isEmptyVal l₀)
  else if op = "notEmpty" then .ok (!isEmptyVal l₀)
  else if op = "undefined" then .ok (isUndef l₀)
  else if op = "notUndefined" then .ok (!isUndef l₀)
  else if op = "null" then .ok (looseEq l₀ .null)
  else if op = "notNull" then .ok (!looseEq l₀ .null)
  else if op = "==" then .ok (looseEq l₀ r₀)
  else if op = "!=" then .ok (!looseEq l₀ r₀)
  else
    let leftGuard : Except String Unit :=
      if op = "includes" ∨ op = "notIncludes" then
        match l₀ with
        | .arr _ => .ok ()
        | .str _ => .ok ()
        | .obj _ => .ok ()
        | .null => .ok ()
        | _ =>
            .error ("operator " ++ op ++
              " requires string | array | object operands: invalid left operand: " ++
              jsToString l₀)
      else if isComparable l₀ then .ok ()
      else
        .error ("operator " ++ op ++
          " requires string | number operands: invalid left operand: " ++ jsToString l₀)
    match leftGuard with
    | .error e => .error e
    | .ok _ =>
        if !isComparable r₀ then
          .error ("operator " ++ op ++
            " requires string | number operands: invalid right operand: " ++ jsToString r₀)
        else
          let lr : JVal × JVal :=
            if l₀.typeofStr ≠ r₀.typeofStr then
              match l₀, r₀ with
              | .num _, .str s => (l₀, coerceNumericString s)
              | .str s, .num _ => (coerceNumericString s, r₀)
              | _, _ => (l₀, r₀)
            else (l₀, r₀)
          compareDispatch op lr.1 lr.2

/-- The named operator helpers (`eq`, `gt`, ...) registered by
helpers.js lines 82-102, each delegating to `compare`. -/
def opHelper (name : String) (l r : JVal) : Except String Bool :=
  if name = "eq" then compare l "==" r
  else if name = "neq" then compare l "!=" r
  else if name = "gt" then compare l ">" r
  else if name = "gte" then compare l ">=" r
  else if name = "lt" then compare l "<" r
  else if name = "lte" then compare l "<=" r
  else compare l name r

/-! ## Template evaluator (helpers.js line 129 delegating to Handlebars)

`evalTpl` compiles a template with Handlebars (`noEscape`) and applies it.
The model below implements Handlebars documented semantics for the
template fragments the engine feeds it: literal text interleaved with
`{{path}}` mustaches whose inner text is a (dotted) scope path.  A
resolved value renders through JS string coercion; an unresolved, `null`
or `undefined` path renders as the empty string (Handlebars non-strict
default).  Helper-call mustaches (check expressions such as
`{{eq a b}}`) never appear in template positions here; the step runner
routes them through an explicit `checkEval` parameter instead. -/

/-- A parsed template segment. -/
inductive Seg where
  | lit : String → Seg
  | mustache : String → Seg
deriving Repr

/-- Scan the characters after an opening mustache for the closing one,
returning the inner text and the remainder. -/
def splitMustache : List Char → Option (List Char × List Char)
  | [] => none
  | '}' :: '}' :: rest => some ([], rest)
  | c :: rest =>
      match splitMustache rest with
      | some (inner, rem) => some (c :: inner, rem)
      | none => none

/-- Template scanner (fuel-indexed; the fuel is the input length, which
always suffices since every step consumes at least one character).  An
unterminated mustache is kept as literal text (Handlebars would raise a
parse error; no engine behaviour settled here depends on that corner). -/
def parseTplAux : Nat → List Char → List Seg
  | 0, cs => if cs.isEmpty then [] else [.lit (String.mk cs)]
  | fuel + 1, cs =>
      match cs with
      | [] => []
      | '{' :: '{' :: rest =>
          match splitMustache rest with
          | some (inner, rem) => .mustache (String.mk inner) :: parseTplAux fuel rem
          | none => [.lit (String.mk cs)]
      | c :: rest => .lit (String.mk [c]) :: parseTplAux fuel rest

/-- Parse a template string into segments. -/
def parseTpl (s : String) : List Seg := parseTplAux s.data.length s.data

/-- Resolve the tail of a dotted path against a value: object fields by
name, array elements by numeric index; anything else fails. -/
def resolveSegs : JVal → List String → Option JVal
  | v, [] => some v
  | .obj fields, seg :: rest =>
      match alookup fields seg with
      | some v => resolveSegs v rest
      | none => none
  | .arr xs, seg :: rest =>
      if allDigits seg.data then
        match xs.get? (digitsToNat seg.data) with
        | some v => resolveSegs v rest
        | none => none
      else none
  | _, _ :: _ => none

/-- Look a dotted path up in the scope (Handlebars simple-path lookup). -/
def lookupPath (ctx : List (String × JVal)) (path : String) : Option JVal :=
  match splitOnChar '.' path with
  | [] => none
  | seg :: rest =>
      match alookup ctx seg with
      | some v => resolveSegs v rest
      | none => none

/-- Render one segment: a resolved non-null value stringifies with JS
string coercion; unresolved, `null` and `undefined` paths render empty. -/
def renderSeg (ctx : List (String × JVal)) : Seg → String
  | .lit s => s
  | .mustache inner =>
      match lookupPath ctx (jsTrim inner) with
      | some .null => ""
      | some .undef => ""
      | some v => jsToString v
      | none => ""

/-- Render a parsed template. -/
def renderSegs (ctx : List (String × JVal)) (segs : List Seg) : String :=
  String.join (segs.map (renderSeg ctx))

/-- `evalTpl` of helpers.js line 129. -/
def evalTpl (tpl : String) (ctx : List (String × JVal)) : String :=
  renderSegs ctx (parseTpl tpl)

/-- The string-leaf case of `walk` (helpers.js lines 131-140): render a
string containing a mustache; a single bare `{{name}}` expression whose
rendering is the literal text "[object Object]" is replaced by the
referenced scope value itself when that value is truthy. -/
def walkStr (s : String) (ctx : List (String × JVal)) : JVal :=
  if strContains s "\x7b\x7b" then
    let t := jsTrim s
    let evaluated := evalTpl s ctx
    let key := jsTrim ((t.drop 2).dropRight 2)
    let bare := evaluated == "[object Object]" && strStarts t "\x7b\x7b" && strEnds t "\x7d\x7d"
    match alookup ctx key with
    | some v => if bare && v.truthy then v else .str evaluated
    | none => .str evaluated
  else .str s

mutual
/-- `walk` of helpers.js lines 130-149: recursively render string leaves
of a JSON-like value (object keys included). -/
def walk : JVal → List (String × JVal) → JVal
  | .str s, ctx => walkStr s ctx
  | .arr xs, ctx => .arr (walkList xs ctx)
  | .obj fields, ctx => .obj (walkFields fields ctx)
  | v, _ => v

/-- `walk` mapped over array elements. -/
def walkList : List JVal → List (String × JVal) → List JVal
  | [], _ => []
  | x :: rest, ctx => walk x ctx :: walkList rest ctx

/-- `walk` mapped over object entries; walked keys (string leaves)
re-coerce to strings as `Object.fromEntries` does. -/
def walkFields : List (String × JVal) → List (String × JVal) → List (String × JVal)
  | [], _ => []
  | (k, v) :: rest, ctx =>
      (jsToString (walkStr k ctx), walk v ctx) :: walkFields rest ctx
end

mutual
/-- zilla-util `deepTransform` specialised to the predicate and
transform used by `evalArgWithType` (helpers.js line 152): every string
leaf starting with a mustache is template-evaluated; containers are
walked, other values pass through. -/
def deepEvalTpl (ctx : List (String × JVal)) : JVal → JVal
  | .str s => if strStarts s "\x7b\x7b" then .str (evalTpl s ctx) else .str s
  | .arr xs => .arr (deepEvalTplList ctx xs)
  | .obj fields => .obj (deepEvalTplFields ctx fields)
  | v => v

/-- `deepEvalTpl` over array elements. -/
def deepEvalTplList (ctx : List (String × JVal)) : List JVal → List JVal
  | [] => []
  | x :: rest => deepEvalTpl ctx x :: deepEvalTplList ctx rest

/-- `deepEvalTpl` over object entry values. -/
def deepEvalTplFields (ctx : List (String × JVal)) :
    List (String × JVal) → List (String × JVal)
  | [] => []
  | (k, v) :: rest => (k, deepEvalTpl ctx v) :: deepEvalTplFields ctx rest
end

/-- `evalArgWithType` of helpers.js lines 150-174: template-evaluate a
handler argument (skipping `null`/`undefined`), coerce a string result
toward a declared `number`/`boolean` type, then fail if the value still
does not have the declared type. -/
def evalArgWithType (val : JVal) (ctx : List (String × JVal))
    (requiredType : Option String) (errorPrefix : String) : Except String JVal :=
  let rt : Option String := match requiredType with
    | some t => if t = "" then none else some t
    | none => none
  let ev0 : JVal := match val with
    | .undef => .undef
    | .null => .null
    | v => deepEvalTpl ctx v
  let ev : JVal := match rt, ev0 with
    | some "number", .str s =>
        if allDigits s.data then .num (parseJsonInt s)
        else if isJsonNumberString (jsToLower s) then .num (parseJsonRat (jsToLower s))
        else .str s
    | some "boolean", .str s =>
        if jsToLower s = "true" ∨ jsToLower s = "false"
        then .bool (jsToLower s = "true")
        else .str s
    | _, e => e
  match rt with
  | some t =>
      let tf := ev.typeofStr
      if tf = t then .ok ev
      else .error s!"{errorPrefix} expected type={t} found={tf}"
  | none => .ok ev

/-! ## util.ts helpers -/

/-- `headerName` of util.ts: non-alphanumeric characters become `_`,
then lowercase. -/
def headerName (h : String) : String :=
  String.mk (h.data.map (fun c => if c.isAlpha || c.isDigit then c.toLower else '_'))

/-- `firstHeader` of util.ts: first header with exactly this name. -/
def firstHeader (headers : List (String × String)) (name : String) : Option String :=
  (headers.find? (fun h => h.1 = name)).map Prod.snd

/-! ## extract.ts -/

/-- A variable-capture source (`ZillaCaptureVarSource`): exactly one of
a JSONPath body capture (`some none` is `body: null`, the whole body),
a header name, a cookie name, or an `assign` expression. -/
structure ZCaptureSource where
  body : Option (Option String) := none
  header : Option String := none
  cookie : Option String := none
  assign : Option String := none
deriving Repr

/-- JS `String.prototype.indexOf` for a single character: index or -1. -/
def jsIndexOfChar (s : String) (c : Char) : Int :=
  match s.data.findIdx? (fun x => x = c) with
  | some i => Int.ofNat i
  | none => -1

/-- First match of the regex `name=([^;]+)` in `raw`: the engine tries
each position in turn and needs at least one non-`;` character after
`name=`. -/
def cookieMatch (raw name : String) : Option String :=
  let pat := (name ++ "=").data
  raw.data.tails.findSome? (fun t =>
    if listStarts t pat then
      let captured := (t.drop pat.length).takeWhile (fun c => c ≠ ';')
      if captured.isEmpty then none else some (String.mk captured)
    else none)

/-- `extract` of extract.ts.  The two external libraries it calls are
parameters: `jsonPath` models jsonpath-plus (`wrap: false`, so no match
is `undefined`), and `deepGet` models zilla-util deepGet exactly as the
source invokes it — note the source passes the *name substring* `srcObj`
itself as deepGet's first argument. -/
def extract (jsonPath : String → JVal → Option JVal)
    (deepGet : JVal → String → JVal)
    (varName : String) (src : ZCaptureSource) (body : JVal)
    (hdrs : List (String × String)) (vars : List (String × JVal)) :
    Except String JVal :=
  match src.body with
  | some none => .ok body
  | some (some path) => .ok ((jsonPath path body).getD .undef)
  | none =>
    match src.assign with
    | some a =>
      if a = "" then extractNoAssign varName src hdrs
      else
        let defined := match alookup vars a with
          | some v => !isUndef v
          | none => false
        if defined then
          let dotPos := jsIndexOfChar a '.'
          let bracketPos := jsIndexOfChar a '['
          if bracketPos = -1 ∧ dotPos = -1 then
            .ok ((alookup vars a).getD .undef)
          else if bracketPos = -1 ∨ dotPos < bracketPos then
            let srcObj := a.take dotPos.toNat
            let srcPath := a.drop (dotPos + 1).toNat
            .ok (deepGet (.str srcObj) srcPath)
          else
            let srcObj := a.take bracketPos.toNat
            let srcPath := a.drop (bracketPos + 1).toNat
            .ok (deepGet (.str srcObj) srcPath)
        else .error s!"extract: var={varName} error=undefined_variable assign={a}"
    | none => extractNoAssign varName src hdrs
where
  /-- The header/cookie/fallthrough tail of `extract`. -/
  extractNoAssign (varName : String) (src : ZCaptureSource)
      (hdrs : List (String × String)) : Except String JVal :=
    match src.header with
    | some hname =>
        .ok (match firstHeader hdrs hname with
          | some v => .str v
          | none => .null)
    | none =>
      match src.cookie with
      | some cname =>
          let raw := (firstHeader hdrs "set-cookie").getD ""
          .ok (match cookieMatch raw cname with
            | some v => .str v
            | none => .null)
      | none => .error s!"extract: var={varName} error=invalid_capture_source"

/-! ## handler.ts: the handler pipeline -/

/-- A raw HTTP response as the engine sees it (`ZillaRawResponse`). -/
structure ZResp where
  status : Nat
  statusText : String := ""
  headers : List (String × String) := []
  body : JVal := .undef
deriving Repr

/-- A declared handler argument (`ZillaHandlerArg`).  The source field
`opaque` is spelled `opaqueArg` here. -/
structure ZHandlerArg where
  type : Option String := none
  default : Option JVal := none
  required : Bool := false
  opaqueArg : Bool := false
deriving Repr

/-- A handler invocation listed on a step (`ZillaStepHandler`). -/
structure ZStepHandler where
  handler : String
  comment : Option String := none
  params : Option (List (String × JVal)) := none
deriving Repr

/-- The behaviour of a registered handler function: it receives the
response, the resolved arguments and the scope object, and returns the
(possibly replaced) response together with the scope object as left
behind (JS handlers mutate that object in place; the pure model returns
it). A thrown handler body is an `error`. -/
def HFunc : Type :=
  Option ZResp → List (String × JVal) → List (String × JVal) →
    Except String (Option ZResp × List (String × JVal))

/-- A registered handler (`ZillaScriptResponseHandler`). -/
structure ZHandlerReg where
  args : Option (List (String × ZHandlerArg)) := none
  func : HFunc

/-- The response embedded as a JS value for the scope key `res`. -/
def respToJVal (r : ZResp) : JVal :=
  .obj [("status", .num r.status), ("statusText", .str r.statusText),
        ("headers", .arr (r.headers.map (fun h =>
          .obj [("name", .str h.1), ("value", .str h.2)]))),
        ("body", r.body)]

/-- Argument resolution of handler.ts lines 34-68: fill an absent step
parameter from a truthy declared default only when the argument is not
marked required (the required-argument throw is commented out in the
source), then map every present parameter through `evalArgWithType`
unless the declaration marks it opaque. -/
def stepHandlerArgs (reg : ZHandlerReg) (stepParams : Option (List (String × JVal)))
    (cx : List (String × JVal)) (hDesc : String) :
    Except String (List (String × JVal)) :=
  let params0 := stepParams.getD []
  let params1 := match reg.args with
    | some argDecls =>
        argDecls.foldl (fun (ps : List (String × JVal)) (decl : String × ZHandlerArg) =>
          let field := decl.1
          let config := decl.2
          let absent := match alookup ps field with
            | some v => isUndef v
            | none => true
          if absent then
            if config.required then ps
            else match config.default with
              | some d => if d.truthy then aset ps field d else ps
              | none => ps
          else ps) params0
    | none => params0
  params1.mapM (fun (pv : String × JVal) => do
    let param := pv.1
    let argDecl : Option ZHandlerArg := match reg.args with
      | some ds => alookup ds param
      | none => none
    if (argDecl.map (fun d => d.opaqueArg)).getD false then
      pure (param, pv.2)
    else
      let v ← evalArgWithType pv.2 cx
        (argDecl.bind (fun d => d.type))
        s!"handler={hDesc} wrong type for arg={param}"
      pure (param, v))

/-- The scope object handed to a handler (handler.ts line 69):
`{...vars, ...sessions, res, body: res?.body}`. -/
def varsForHandlerInit (vars : List (String × JVal))
    (sessions : List (String × String)) (res : Option ZResp) :
    List (String × JVal) :=
  aspread (aspread vars (sessions.map (fun p => (p.1, JVal.str p.2))))
    [("res", match res with | some r => respToJVal r | none => .undef),
     ("body", match res with | some r => r.body | none => .undef)]

/-- `runStepHandlers` of handler.ts: run each listed handler in order,
resolving its arguments, invoking its function on a fresh
`{...vars, ...sessions, res, body}` scope object, and folding scope keys
the handler introduced (absent before the call) back into `cx` and
`vars`.  A handler name missing from the registry crashes (the source
logs and then dereferences `undefined`). -/
def runStepHandlers (handlers : List (String × ZHandlerReg))
    (stepHandlers : Option (List ZStepHandler))
    (cx vars : List (String × JVal)) (sessions : List (String × String))
    (res : Option ZResp) :
    Except String (Option ZResp × List (String × JVal) × List (String × JVal)) :=
  match stepHandlers with
  | none => .ok (res, cx, vars)
  | some hs => go hs cx vars res
where
  /-- Sequential handler execution. -/
  go : List ZStepHandler → List (String × JVal) → List (String × JVal) →
      Option ZResp →
      Except String (Option ZResp × List (String × JVal) × List (String × JVal))
  | [], cx, vars, res => .ok (res, cx, vars)
  | sh :: rest, cx, vars, res => do
      let hName := sh.handler
      match alookup handlers hName with
      | none => .error s!"TypeError: handler not found: {hName}"
      | some reg => do
          let hDesc := hName ++ (match sh.comment with
            | some c => "( " ++ c ++ ")"
            | none => "")
          let args ← stepHandlerArgs reg sh.params cx hDesc
          let vfh := varsForHandlerInit vars sessions res
          let origKeys := akeys vfh
          let (res', vfh') ← reg.func res args vfh
          let merged := vfh'.foldl (fun acc kv =>
            if origKeys.contains kv.1 then acc
            else (aset acc.1 kv.1 kv.2, aset acc.2 kv.1 kv.2)) (cx, vars)
          go rest merged.1 merged.2 res'

/-! ## Reference-identity model for the handler scope merge

The merge-back of handler.ts lines 69-81 interacts with JS object
identity: the scope object given to a handler shares each entry with the
caller's `vars` by reference.  `RVal` makes that explicit: an entry is a
primitive or a reference into a heap, and "mutating an object in place"
is a heap update that leaves every alias visible. -/

/-- A scope entry: a primitive value or a reference to a heap object. -/
inductive RVal where
  | prim : JVal → RVal
  | ref : Nat → RVal
deriving Repr

/-- A heap assigning an object value to every reference. -/
def Heap : Type := Nat → JVal

/-- Read an entry through the heap. -/
def deref (h : Heap) : RVal → JVal
  | .prim v => v
  | .ref r => h r

/-- The scope object handed to a handler, in the reference model
(handler.ts line 69): a shallow copy, so entries keep their identity. -/
def varsForHandlerInitR (vars : List (String × RVal))
    (sessions : List (String × String)) (res body : RVal) :
    List (String × RVal) :=
  aspread (aspread vars (sessions.map (fun p => (p.1, RVal.prim (JVal.str p.2)))))
    [("res", res), ("body", body)]

/-- The merge-back of handler.ts lines 77-81: every entry of the
handler's scope object whose key was absent before the call is written
into `cx` and `vars`; pre-existing keys are left untouched. -/
def mergeNewKeys (origKeys : List String) (vfh : List (String × RVal))
    (cx vars : List (String × RVal)) :
    List (String × RVal) × List (String × RVal) :=
  vfh.foldl (fun acc kv =>
    if origKeys.contains kv.1 then acc
    else (aset acc.1 kv.1 kv.2, aset acc.2 kv.1 kv.2)) (cx, vars)

/-! ## The script data model (types.ts) -/

/-- A server's session transport (`ZillaScriptSendSession`). -/
structure ZSendSession where
  cookie : Option String := none
  header : Option String := none
deriving Repr

/-- A resolved server entry as built by the engine entry point:
declared `server` name, computed `name`, evaluated `base`. -/
structure ZServer where
  server : Option String := none
  name : String
  base : String
  session : Option ZSendSession := none
deriving Repr

/-- A request block (`ZillaScriptRequest`): convenience method
properties, explicit `uri`/`method`, and the transport fields. -/
structure ZRequest where
  get : Option String := none
  head : Option String := none
  post : Option String := none
  put : Option String := none
  patch : Option String := none
  delete : Option String := none
  options : Option String := none
  connect : Option String := none
  trace : Option String := none
  uri : Option String := none
  method : Option String := none
  session : Option String := none
  headers : Option (List (String × String)) := none
  contentType : Option String := none
  body : Option JVal := none
  bodyVar : Option String := none
  query : Option (List (String × JVal)) := none
deriving Repr

/-- A session capture spec (`ZillaCaptureSession`). -/
structure ZCaptureSessionT where
  name : String
  fromSrc : Option ZCaptureSource := none
deriving Repr

/-- A named validation group (`ZillaResponseValidation`). -/
structure ZValidationT where
  id : String
  check : List String
deriving Repr

/-- A response block (`ZillaScriptResponse`). -/
structure ZResponse where
  status : Option Nat := none
  statusClass : Option String := none
  session : Option ZCaptureSessionT := none
  capture : Option (List (String × ZCaptureSource)) := none
  validate : Option (List ZValidationT) := none
deriving Repr

/-- A loop spec minus its recursive nested steps (`ZillaScriptLoop`). -/
inductive LoopItems where
  | arr : List JVal → LoopItems
  | var : String → LoopItems
deriving Repr

/-- JS truthiness of the `items` property. -/
def loopItemsTruthy : Option LoopItems → Bool
  | none => false
  | some (.arr _) => true
  | some (.var s) => s ≠ ""

/-- The non-recursive fields of a loop spec. -/
structure ZLoopCore where
  items : Option LoopItems := none
  varName : String := ""
  indexVarName : Option String := none
  start : Option Nat := none
  includePath : Option String := none
deriving Repr

/-- A declared include parameter (`ZillaScriptParam`). -/
structure ZParamCfg where
  required : Bool := false
  default : Option JVal := none
deriving Repr

/-- An included script's name and declared params (`ZillaScript` without
its steps, which are recursive). -/
structure ZScriptMeta where
  script : String := ""
  params : Option (List (String × ZParamCfg)) := none
deriving Repr

/-- The non-recursive fields of a step (`ZillaScriptStep`). -/
structure ZStepCore where
  step : Option String := none
  server : Option String := none
  vars : Option (List (String × JVal)) := none
  edits : Option (List (String × JVal)) := none
  params : Option (List (String × JVal)) := none
  request : Option ZRequest := none
  response : Option ZResponse := none
  handlers : Option (List ZStepHandler) := none
deriving Repr

/-- A step: its core fields, an optional loop (with nested steps), and
an optional include (by path or by value). -/
inductive ZStep where
  | mk : ZStepCore → Option ZLoopCore → Option (List ZStep) →
      Option (String ⊕ (ZScriptMeta × List ZStep)) → ZStep
deriving Repr

/-- The core fields of a step. -/
def ZStep.core : ZStep → ZStepCore
  | .mk c _ _ _ => c

/-- The loop spec of a step, when present. -/
def ZStep.loop : ZStep → Option ZLoopCore
  | .mk _ l _ _ => l

/-- The nested steps of a loop step (`loop.steps`). -/
def ZStep.loopSteps : ZStep → Option (List ZStep)
  | .mk _ _ s _ => s

/-- The include target of an include step. -/
def ZStep.inc : ZStep → Option (String ⊕ (ZScriptMeta × List ZStep))
  | .mk _ _ _ i => i

/-- A plain request step with default core fields. -/
def leafStep (r : ZRequest) : ZStep := .mk { request := some r } none none none

/-! ## stepUtil.ts -/

/-- zilla-util `isEmpty` on an optional string: absent or empty. -/
def isEmptyOptStr : Option String → Bool
  | none => true
  | some s => s = ""

/-- The convenience method properties in `ZillaRequestMethod`
declaration order. -/
def methodProps (r : ZRequest) : List (String × Option String) :=
  [("GET", r.get), ("HEAD", r.head), ("POST", r.post), ("PUT", r.put),
   ("PATCH", r.patch), ("DELETE", r.delete), ("OPTIONS", r.options),
   ("CONNECT", r.connect), ("TRACE", r.trace)]

/-- `processStep` of stepUtil.ts: validate a loop's `items`, pass
include steps through, translate a request's convenience method property
into `uri`+`method` (rejecting a step with several), reject a request
with no URI, default the method to GET, and reject step handlers that
were never registered.  JSON dumps in the source's messages are elided. -/
def processStep (handlers : List (String × ZHandlerReg)) (step : ZStep) :
    Except String ZStep :=
  let lbl := step.core.step.getD "undefined"
  match step.loop with
  | some lc =>
      if loopItemsTruthy lc.items then .ok step
      else .error s!"ERROR No items property for loop in step={lbl}"
  | none =>
  if (step.inc).isSome then .ok step
  else
    match step.core.request with
    | none => .error s!"ERROR No request property for step={lbl}"
    | some req => do
        let found ← (methodProps req).foldlM
          (fun (acc : Option (String × String)) mp =>
            match mp.2 with
            | some u =>
                match acc with
                | some _ => .error "Multiple method properties found in step"
                | none => .ok (some (mp.1, u))
            | none => .ok acc) none
        let req' := match found with
          | some (m, u) => { req with uri := some u, method := some m }
          | none => req
        if found.isNone ∧ isEmptyOptStr req'.uri then
          .error "ERROR No URI specified for step.request"
        else
          let req'' :=
            if found.isNone ∧ isEmptyOptStr req'.method then
              { req' with method := some "GET" }
            else req'
          let step' : ZStep := .mk { step.core with request := some req'' }
            step.loop step.loopSteps step.inc
          match step.core.handlers with
          | some hs =>
              if hs.all (fun h => (alookup handlers h.handler).isSome)
              then .ok step'
              else .error s!"ERROR handler not found for step={lbl}"
          | none => .ok step'

/-- `resolveServer` of stepUtil.ts lines 107-128: the step's server
name, else the default (first-declared) server name; an unknown name is
an error. -/
def resolveServer (servers : List ZServer) (step : ZStep) (defServer : String) :
    Except String ZServer :=
  let wanted := step.core.server.getD defServer
  match servers.find? (fun s => s.name = wanted) with
  | some srv => .ok srv
  | none =>
      let lbl := step.core.step.getD "?"
      .error s!"server not found for step {lbl}"

/-- Own enumerable entries of a value as `Object.assign` sees a source:
object fields, array elements under index keys, string characters under
index keys, nothing for other primitives. -/
def objEntries : JVal → List (String × JVal)
  | .obj fs => fs
  | .arr xs => xs.enum.map (fun p => (toString p.1, p.2))
  | .str s => s.data.enum.map (fun p => (toString p.1, .str (String.mk [p.2])))
  | _ => []

/-- `Object.assign({}, base, src)`. -/
def objAssign (base src : JVal) : JVal :=
  .obj (aspread (objEntries base) (objEntries src))

/-- `editVars` of stepUtil.ts lines 130-152: template-evaluate string
edits that start with a mustache, merge object edits over the existing
value (JS `typeof` sends `null` and arrays down the object branch too),
assign numbers, booleans and `undefined` directly.  The source's
undefined-variable check is commented out. -/
def editVars (edits : List (String × JVal)) (vars : List (String × JVal)) :
    List (String × JVal) :=
  edits.foldl (fun (vars : List (String × JVal)) kv =>
    let varName := kv.1
    match kv.2 with
    | .str s =>
        aset vars varName (.str (if strStarts s "\x7b\x7b" then evalTpl s vars else s))
    | .obj fs =>
        let base := match alookup vars varName with
          | some v => if v.truthy then v else .obj []
          | none => .obj []
        aset vars varName (objAssign base (walk (.obj fs) vars))
    | .arr xs =>
        let base := match alookup vars varName with
          | some v => if v.truthy then v else .obj []
          | none => .obj []
        aset vars varName (objAssign base (walk (.arr xs) vars))
    | .null =>
        let base := match alookup vars varName with
          | some v => if v.truthy then v else .obj []
          | none => .obj []
        aset vars varName (objAssign base .null)
    | v => aset vars varName v) vars

/-- Request headers, modelled as a list of (lowercased name, value) as
the JS `Headers` class normalizes them; `set` replaces. -/
def headersSet (hs : List (String × String)) (name value : String) :
    List (String × String) :=
  let ln := jsToLower name
  if hs.any (fun h => h.1 = ln) then
    hs.map (fun h => if h.1 = ln then (ln, value) else h)
  else hs ++ [(ln, value)]

/-- `Headers.append`: a repeated name combines comma-separated. -/
def headersAppend (hs : List (String × String)) (name value : String) :
    List (String × String) :=
  let ln := jsToLower name
  if hs.any (fun h => h.1 = ln) then
    hs.map (fun h => if h.1 = ln then (ln, h.2 ++ ", " ++ value) else h)
  else hs ++ [(ln, value)]

/-- `setRequestSession` of stepUtil.ts lines 154-198: require the server
to support sessions, look the session token up (with the
double-indirection fallback when the session name is itself a template
expression), attach it as cookie and/or header, and fail when a
non-empty session name has no token. -/
def setRequestSession (srv : ZServer) (sessions : List (String × String))
    (vars : List (String × JVal)) (step : ZStep)
    (headers : List (String × String)) :
    Except String (List (String × String)) :=
  let lbl := step.core.step.getD "?no step name"
  match srv.session with
  | none => .error s!"step={lbl} session not supported by server={srv.name}"
  | some ss =>
      let sess := ((step.core.request.getD {}).session).getD ""
      let tok0 : Option String := alookup sessions sess
      let tokA : Option String := match tok0 with
        | some t => if t = "" then none else some t
        | none => none
      let tok : Option String :=
        match tokA with
        | some t => some t
        | none =>
            if strStarts sess "\x7b\x7b" then
              let ctx := aspread vars (sessions.map (fun p => (p.1, JVal.str p.2)))
              let realSess := evalTpl sess ctx
              if realSess ≠ "" then
                match alookup sessions realSess with
                | some t => if t = "" then none else some t
                | none => none
              else none
            else none
      match tok with
      | some t =>
          let hs1 := match ss.cookie with
            | some cname => headersAppend headers "Cookie" (cname ++ "=" ++ t)
            | none => headers
          let hs2 := match ss.header with
            | some hname => headersSet hs1 hname t
            | none => hs1
          .ok hs2
      | none =>
          if sess ≠ "" then
            .error s!"step={lbl} session={sess} not found"
          else .ok headers

/-- Minimal JSON string quoting for the serialization model. -/
def jsonQuote (s : String) : String :=
  "\"" ++ String.mk (s.data.foldr (fun c acc =>
    if c = '"' then '\\' :: '"' :: acc
    else if c = '\\' then '\\' :: '\\' :: acc
    else c :: acc) []) ++ "\""

mutual
/-- Model of `JSON.stringify` (compact form): `undefined` serializes to
nothing, undefined object properties are dropped, undefined array
elements serialize as null. -/
def jsonStringify : JVal → Option String
  | .undef => none
  | .null => some "null"
  | .bool b => some (if b then "true" else "false")
  | .num q => some (numToString q)
  | .str s => some (jsonQuote s)
  | .arr xs => some ("[" ++ String.intercalate "," (jsonStringifyElems xs) ++ "]")
  | .obj fs =>
      some ("\x7b" ++ String.intercalate "," (jsonStringifyFields fs) ++ "\x7d")

/-- Array elements for `jsonStringify`. -/
def jsonStringifyElems : List JVal → List String
  | [] => []
  | x :: rest => ((jsonStringify x).getD "null") :: jsonStringifyElems rest

/-- Object fields for `jsonStringify` (undefined values dropped). -/
def jsonStringifyFields : List (String × JVal) → List String
  | [] => []
  | (k, v) :: rest =>
      match jsonStringify v with
      | some s => (jsonQuote k ++ ":" ++ s) :: jsonStringifyFields rest
      | none => jsonStringifyFields rest
end

/-- `getBody` of stepUtil.ts lines 200-217: serialize the walked
`request.body` when truthy, else serialize the variable named by
`bodyVar` (failing when it is not defined), else no body. -/
def getBody (req : ZRequest) (ctx vars : List (String × JVal)) :
    Except String (Option String) :=
  match req.body with
  | some b =>
      if b.truthy then .ok (jsonStringify (walk b ctx))
      else getBodyVar req vars
  | none => getBodyVar req vars
where
  /-- The `bodyVar` fallback branch. -/
  getBodyVar (req : ZRequest) (vars : List (String × JVal)) :
      Except String (Option String) :=
    match req.bodyVar with
    | some bv =>
        if bv = "" then .ok none
        else
          match alookup vars bv with
          | some v =>
              if isUndef v then .error s!"getBody: bodyVar not defined: {bv}"
              else .ok (jsonStringify v)
          | none => .error s!"getBody: bodyVar not defined: {bv}"
    | none => .ok none

/-- `assignResponseSession` of stepUtil.ts lines 237-273: build the
capture strategy (explicit `from`, else the server's session transport)
and store the extracted token when it is a string; a non-string token
only warns. -/
def assignResponseSession (jsonPath : String → JVal → Option JVal)
    (deepGet : JVal → String → JVal) (srv : ZServer) (step : ZStep)
    (respSession : ZCaptureSessionT) (res : ZResp)
    (sessions : List (String × String)) :
    Except String (List (String × String)) :=
  match srv.session with
  | none =>
      let lbl := step.core.step.getD "?no step name"
      let srvLbl := srv.server.getD "undefined"
      .error s!"step={lbl} session not supported by server={srvLbl}"
  | some ss => do
      let strategy : ZCaptureSource := match respSession.fromSrc with
        | some f => f
        | none =>
            { body := none
              header := ss.header
              cookie := ss.cookie }
      let tok ← extract jsonPath deepGet "session" strategy res.body res.headers []
      match tok with
      | .str t => .ok (aset sessions respSession.name t)
      | _ => .ok sessions

/-- `loadSubScriptSteps` of stepUtil.ts lines 279-293: a loop's own
nested steps, else the steps of a script loaded from `loop.include`
(requiring a named script), else an error. -/
def loadSubScriptSteps (loadInclude : String → Except String (ZScriptMeta × List ZStep))
    (lc : ZLoopCore) (loopSteps : Option (List ZStep)) :
    Except String (List ZStep) :=
  match loopSteps with
  | some s => .ok s
  | none =>
      match lc.includePath with
      | some p =>
          if p = "" then .error "loadSubScriptSteps: neither steps nor include specified"
          else do
            let loaded ← loadInclude p
            if loaded.1.script ≠ "" then .ok loaded.2
            else .error s!"loadSubScriptSteps: include={p} expected steps property in JSON"
      | none => .error "loadSubScriptSteps: neither steps nor include specified"

/-! ## step.ts: the recursive step runner -/

/-- Run options as the runner sees them (`ZillaScriptStepOptions` minus
the steps, plus the two continuation flags from `ZillaScriptOptions`). -/
structure ZOpts where
  env : List (String × String) := []
  servers : List ZServer := []
  defServer : String := ""
  continueOnInvalid : Bool := false
  continueOnError : Bool := false
  handlers : List (String × ZHandlerReg) := []

/-- External collaborators of the runner, as explicit parameters: the
HTTP transport, the include-file loader, the Handlebars compilation of a
check expression `\x7b\x7bexpr\x7d\x7d` against a context (either the
rendered string or a thrown message), jsonpath-plus, zilla-util deepGet,
and `encodeURIComponent`. -/
structure Externals where
  transport : String → String → List (String × String) → Option String → ZResp
  loadInclude : String → Except String (ZScriptMeta × List ZStep)
  checkEval : String → List (String × JVal) → Except String String
  jsonPath : String → JVal → Option JVal
  deepGet : JVal → String → JVal
  encodeURIComp : String → String

/-- The mutable state threaded through the runner: the variable map, the
session map and the diagnostic step stack (all shared by reference in
the source). -/
structure RState where
  vars : List (String × JVal) := []
  sessions : List (String × String) := []
  stack : List ZStep := []
deriving Repr

/-- One entry of a validation's `details` list. -/
structure Detail where
  name : String
  check : String
  rendered : Option String := none
  error : Option String := none
  result : Bool
deriving Repr

/-- A validation verdict (`ZillaResponseValidationResult`). -/
structure Validation where
  name : String
  result : Bool
  details : List Detail
deriving Repr

/-- A step result (`ZillaStepResult`): container steps carry no
status/headers/body. -/
structure StepResult where
  step : ZStep
  stack : List ZStep
  status : Option Nat := none
  headers : Option (List (String × String)) := none
  body : Option JVal := none
  validation : Validation
  vars : List (String × JVal) := []
  sessions : List (String × String) := []
deriving Repr

/-- A thrown error inside the runner: its message, the check details the
throwing step had accumulated (the catch block shares the step's
`checkDetails` container), and the state at the throw (scope mutations
before a throw persist, since the maps are shared by reference). -/
structure RErr where
  msg : String
  details : List Detail := []
  state : RState
deriving Repr

/-- The environment map as the JS value bound to the context key `env`. -/
def envObj (env : List (String × String)) : JVal :=
  .obj (env.map (fun p => (p.1, JVal.str p.2)))

/-- Status validation of step.ts lines 256-264: the exact declared
`status` when truthy (a declared 0 is falsy and ignored), else the
declared `statusClass` (default "2xx") against `floor(status/100)+"xx"`. -/
def statusPass (resp : Option ZResponse) (status : Nat) : Bool :=
  let expected : Option Nat := resp.bind (fun r => r.status)
  let expectedTruthy := match expected with
    | some s => s != 0
    | none => false
  if expectedTruthy then status = expected.getD 0
  else
    let expectedClass := (resp.bind (fun r => r.statusClass)).getD "2xx"
    toString (status / 100) ++ "xx" = expectedClass

/-- Custom-check evaluation of step.ts lines 275-309: every check string
of every validation group renders independently through `checkEval`; a
throw during rendering is recorded as a failed check with the error
message, never re-raised. -/
def runChecks (ext : Externals) (ctx cx : List (String × JVal))
    (resp : Option ZResponse) (overall0 : Bool) (details0 : List Detail) :
    Bool × List Detail :=
  match resp.bind (fun r => r.validate) with
  | none => (overall0, details0)
  | some vs =>
      vs.foldl (fun acc validation =>
        validation.check.foldl (fun (acc : Bool × List Detail) expr =>
          let validationId := evalTpl validation.id ctx
          match ext.checkEval expr cx with
          | .ok rendered =>
              let pass := jsToLower (jsTrim rendered) == "true"
              (acc.1 && pass, acc.2 ++
                [{ name := validationId, check := expr,
                   rendered := some rendered, result := pass }])
          | .error msg =>
              (false, acc.2 ++
                [{ name := validationId, check := expr, error := some msg,
                   result := false }])) acc) (overall0, details0)

/-- Include-parameter binding of step.ts lines 107-131: a required param
with no supplied value throws; otherwise a truthy declared default fills
an absent param, and supplied string values are template-evaluated.  The
error carries the bindings already written (scope mutation persists). -/
def bindIncludeParams (stepName : String) (declared : List (String × ZParamCfg))
    (stepParams : Option (List (String × JVal)))
    (ctx : List (String × JVal)) (vars : List (String × JVal)) :
    Except (String × List (String × JVal)) (List (String × JVal)) :=
  match declared with
  | [] => .ok vars
  | (name, cfg) :: rest =>
      let supplied : Option JVal := match stepParams with
        | some sp =>
            match alookup sp name with
            | some v => if isUndef v then none else some v
            | none => none
        | none => none
      if cfg.required ∧ supplied.isNone then
        .error (s!"step={stepName} param={name} is required by included script", vars)
      else
        let defTruthy := match cfg.default with
          | some d => d.truthy
          | none => false
        if defTruthy && supplied.isNone then
          bindIncludeParams stepName rest stepParams ctx
            (aset vars name (cfg.default.getD .undef))
        else
          match supplied with
          | some v =>
              let v' := match v with
                | .str s => JVal.str (evalTpl s ctx)
                | w => w
              bindIncludeParams stepName rest stepParams ctx (aset vars name v')
          | none => bindIncludeParams stepName rest stepParams ctx vars

/-- Variable capture of step.ts lines 219-225: extract each capture
source in order into the variable map; a failed extraction throws,
keeping the captures already written. -/
def captureVars (ext : Externals) (step : ZStep) (res : ZResp)
    (vars : List (String × JVal)) :
    Except (String × List (String × JVal)) (List (String × JVal)) :=
  match step.core.response with
  | some resp =>
      match resp.capture with
      | some entries => capGo ext res entries vars
      | none => .ok vars
  | none => .ok vars
where
  /-- Sequential capture extraction. -/
  capGo (ext : Externals) (res : ZResp) :
      List (String × ZCaptureSource) → List (String × JVal) →
      Except (String × List (String × JVal)) (List (String × JVal))
  | [], vars => .ok vars
  | (v, src) :: rest, vars =>
      match extract ext.jsonPath ext.deepGet v src res.body res.headers vars with
      | .ok val => capGo ext res rest (aset vars v val)
      | .error m => .error (m, vars)

/-- The common tail of a step (step.ts lines 234-337): build the
Handlebars context, run the step handlers, run status validation (only
when a response exists) and the custom checks, throw when invalid and
`continueOnInvalid` is off, else record the step's result after any
results contributed by loop/include expansion. -/
def finishStep (ext : Externals) (opts : ZOpts) (step : ZStep) (stepName : String)
    (ctx1 : List (String × JVal)) (res0 : Option ZResp)
    (hdrMap : Option (List (String × String)))
    (pre : List StepResult) (st : RState) :
    Except RErr (List StepResult × RState) :=
  let hdrJVal : JVal := match hdrMap with
    | some m => .obj (m.map (fun p => (p.1, JVal.str p.2)))
    | none => .undef
  let bodyJVal : JVal := match res0 with
    | some r => if r.body.truthy then r.body else .undef
    | none => .undef
  let cx0 := aspread (aspread ctx1 st.vars)
    (st.sessions.map (fun p => (p.1, JVal.str p.2)))
  let cx := aset (aset cx0 "body" bodyJVal) "header" hdrJVal
  match runStepHandlers opts.handlers step.core.handlers cx st.vars st.sessions res0 with
  | .error m => .error { msg := m, state := st }
  | .ok (res1, cx1', vars1) =>
      let (overall1, details1) :=
        match res1 with
        | some r =>
            let sp := statusPass step.core.response r.status
            let stat := r.status
            (sp, [{ name := "status", check := s!"status {stat}",
                    result := sp : Detail }])
        | none => (true, ([] : List Detail))
      let od := runChecks ext ctx1 cx1' step.core.response overall1 details1
      let validation : Validation :=
        { name := "combined-validations", result := od.1, details := od.2 }
      let st' : RState := { st with vars := vars1 }
      if !od.1 ∧ !opts.continueOnInvalid then
        .error { msg := s!"validation failed in step {stepName}",
                 details := od.2, state := st' }
      else
        let result : StepResult :=
          { step := step, stack := st'.stack,
            status := res1.map (fun r => r.status),
            headers := res1.map (fun r => r.headers),
            body := res1.map (fun r => r.body),
            validation := validation,
            vars := st'.vars, sessions := st'.sessions }
        .ok (pre ++ [result], st')

/-- The type of the runner's recursive call: run a nested step list
from a state. -/
def RunFn : Type := List ZStep → RState → Except RErr (List StepResult × RState)

/-- Loop expansion of step.ts lines 148-162: each remaining index runs
the nested steps over a forked shallow copy of the outer variables with
the item (and optional index) bound; leaf results are re-tagged with the
loop step.  The outer variable map is left untouched; sessions and the
stack are shared.  An error propagating from an iteration keeps the
outer variable map in the error state (the catch block reads the outer
`vars` binding), with the inner sessions/stack mutations. -/
def loopIters (recur : RunFn) (step : ZStep) (lc : ZLoopCore)
    (subSteps : List ZStep) (items : List JVal)
    (outerVars : List (String × JVal)) (idxs : List Nat)
    (sessions : List (String × String)) (stack : List ZStep) :
    Except RErr (List StepResult × List (String × String) × List ZStep) :=
  idxs.foldl (fun acc i =>
    match acc with
    | .error e => .error e
    | .ok (rsAcc, sessions, stack) =>
        let item := items.getD i .undef
        let loopVars0 := aset outerVars lc.varName item
        let loopVars := match lc.indexVarName with
          | some ivn => aset loopVars0 ivn (.num i)
          | none => loopVars0
        match recur subSteps
            { vars := loopVars, sessions := sessions, stack := stack } with
        | .error e =>
            .error { msg := e.msg, details := [],
                     state := { vars := outerVars, sessions := e.state.sessions,
                                stack := e.state.stack } }
        | .ok (results, stIter) =>
            .ok (rsAcc ++ results.map (fun r => { r with step := step }),
                 stIter.sessions, stIter.stack))
    (.ok ([], sessions, stack))

/-- The try body for one step (step.ts lines 59-339): resolve the
server, evaluate step vars and edits, then expand an include, expand a
loop, or dispatch a request, and finish with handlers + validation +
result recording.  `recur` is the recursive `runScriptSteps` call used
by include/loop expansion. -/
def runOneStep (ext : Externals) (opts : ZOpts) (recur : RunFn)
    (step : ZStep) (st : RState) : Except RErr (List StepResult × RState) :=
    let nameCtx := aset st.vars "env" (envObj opts.env)
    let stepName := match step.core.step with
      | some s => evalTpl s nameCtx
      | none => "(unnamed)"
    match resolveServer opts.servers step opts.defServer with
    | .error m => .error { msg := m, state := st }
    | .ok srv =>
    let ctx0 := aset st.vars "env" (envObj opts.env)
    let vc : List (String × JVal) × List (String × JVal) :=
      match step.core.vars with
      | some svars =>
          let ctxS := st.sessions.foldl (fun c p => aset c p.1 (.str p.2)) ctx0
          svars.foldl (fun (acc : List (String × JVal) × List (String × JVal)) kv =>
            let val : JVal := match kv.2 with
              | .str s => .str (evalTpl s acc.2)
              | v => v
            (aset acc.1 kv.1 val, aset acc.2 kv.1 val)) (st.vars, ctxS)
      | none => (st.vars, ctx0)
    let vars2 := match step.core.edits with
      | some ed => editVars ed vc.1
      | none => vc.1
    let ctx1 := vc.2
    let st1 : RState := { st with vars := vars2 }
    match step.inc with
    | some incRef =>
        let loaded : Except String (ZScriptMeta × List ZStep) := match incRef with
          | .inl path => ext.loadInclude path
          | .inr sv => .ok sv
        (match loaded with
        | .error m => .error { msg := m, state := st1 }
        | .ok (meta, incSteps) =>
          match bindIncludeParams stepName ((meta.params).getD [])
              step.core.params ctx1 vars2 with
          | .error (m, varsE) =>
              .error { msg := m, state := { st1 with vars := varsE } }
          | .ok vars3 =>
              let stIn : RState :=
                { vars := vars3, sessions := st1.sessions,
                  stack := st1.stack ++ [step] }
              match recur incSteps stIn with
              | .error e => .error { msg := e.msg, details := [], state := e.state }
              | .ok (results, stOut) =>
                  let results' := results.map (fun r => { r with step := step })
                  let stAfter : RState := { stOut with stack := stOut.stack.dropLast }
                  finishStep ext opts step stepName ctx1 none none results' stAfter)
    | none =>
    match step.loop with
    | some lc =>
        (match loadSubScriptSteps ext.loadInclude lc step.loopSteps with
        | .error m => .error { msg := m, state := st1 }
        | .ok subSteps =>
          let items? : Option (List JVal) := match lc.items with
            | some (.arr xs) => some xs
            | some (.var name) =>
                match alookup vars2 name with
                | some (.arr xs) => some xs
                | _ => none
            | none => none
          match items? with
          | none => .error { msg := s!"step={stepName} loop.items is not an array", state := st1 }
          | some items =>
              let idxs := (List.range items.length).drop (lc.start.getD 0)
              match loopIters recur step lc subSteps items vars2 idxs
                  st1.sessions (st1.stack ++ [step]) with
              | .error e => .error e
              | .ok (results, sessions2, stack2) =>
                  let stAfter : RState :=
                    { vars := vars2, sessions := sessions2,
                      stack := stack2.dropLast }
                  finishStep ext opts step stepName ctx1 none none results stAfter)
    | none =>
        let req := step.core.request.getD {}
        let uri0 := (req.uri).getD ""
        let rawUrl :=
          (if strEnds srv.base "/" then srv.base else srv.base ++ "/") ++
          (if strStarts uri0 "/" then uri0.drop 1 else uri0)
        let query := match req.query with
          | none => ""
          | some q =>
              "?" ++ String.intercalate "&"
                ((q.filter (fun kv => !isUndef kv.2)).map (fun kv =>
                  ext.encodeURIComp kv.1 ++ "=" ++
                    (match kv.2 with
                     | .str s =>
                         ext.encodeURIComp
                           (if strContains s "\x7b\x7b" then evalTpl s ctx1 else s)
                     | v => jsToString v)))
        let url := (if strContains rawUrl "\x7b\x7b" then evalTpl rawUrl ctx1 else rawUrl) ++ query
        let method := (req.method).getD "GET"
        let headers0 := headersSet [] "Content-Type" ((req.contentType).getD "application/json")
        let headers1 := match req.headers with
          | some hs =>
              hs.foldl
                (fun acc h => headersSet acc (evalTpl h.1 ctx1) (evalTpl h.2 ctx1))
                headers0
          | none => headers0
        let needSession := match req.session with
          | some s => s != ""
          | none => false
        match (if needSession
               then setRequestSession srv st1.sessions vars2 step headers1
               else .ok headers1) with
        | .error m => .error { msg := m, state := st1 }
        | .ok headers2 =>
        match getBody req ctx1 vars2 with
        | .error m => .error { msg := m, state := st1 }
        | .ok body? =>
        let res := ext.transport method url headers2 body?
        match (match step.core.response with
               | some resp =>
                   match resp.session with
                   | some rs =>
                       assignResponseSession ext.jsonPath ext.deepGet srv step rs
                         res st1.sessions
                   | none => .ok st1.sessions
               | none => .ok st1.sessions) with
        | .error m => .error { msg := m, state := st1 }
        | .ok sessions2 =>
        match captureVars ext step res vars2 with
        | .error (m, varsE) =>
            .error { msg := m,
                     state := { vars := varsE, sessions := sessions2,
                                stack := st1.stack } }
        | .ok vars3 =>
            let hdrMap := res.headers.foldl
              (fun m h => aset m (headerName h.1) h.2) []
            finishStep ext opts step stepName ctx1 (some res) (some hdrMap) []
              { vars := vars3, sessions := sessions2, stack := st1.stack }

/-- The per-step loop of `runScriptSteps` with its catch block: an error
aborts the run unless `continueOnError` is set, in which case a
synthetic result with status 0 and a `runtime` detail is recorded and
the run continues from the state at the throw. -/
def stepsLoop (opts : ZOpts)
    (runOne : ZStep → RState → Except RErr (List StepResult × RState))
    (steps : List ZStep) (st : RState) :
    Except RErr (List StepResult × RState) :=
  steps.foldl (fun acc step =>
    match acc with
    | .error e => .error e
    | .ok (rsAcc, st) =>
        match runOne step st with
        | .ok (rs, st') => .ok (rsAcc ++ rs, st')
        | .error e =>
            if opts.continueOnError then
              let details := e.details ++
                [{ name := "runtime", check := "<internal error>",
                   error := some e.msg, result := false }]
              let r : StepResult :=
                { step := step, stack := e.state.stack,
                  status := some 0, headers := some [], body := some (.str ""),
                  validation := { name := "error", result := false, details := details },
                  vars := e.state.vars, sessions := e.state.sessions }
              .ok (rsAcc ++ [r], e.state)
            else .error e)
    (.ok ([], st))

/-- `runScriptSteps` of step.ts: preprocess all steps (a preprocessing
error escapes regardless of the continuation flags, since it is thrown
while mapping, before the loop), then run them in order.  The fuel
argument bounds include/loop recursion depth (the source can recurse
unboundedly through include files); every theorem below instantiates it
with a sufficient concrete value. -/
def runScriptSteps (ext : Externals) (opts : ZOpts) :
    Nat → List ZStep → RState → Except RErr (List StepResult × RState)
  | 0, _, st => .error { msg := "model: recursion fuel exhausted", state := st }
  | fuel + 1, steps, st =>
      match steps.mapM (processStep opts.handlers) with
      | .error m => .error { msg := m, state := st }
      | .ok psteps =>
          stepsLoop opts (runOneStep ext opts (runScriptSteps ext opts fuel)) psteps st

/-! ## Concrete fixtures used by the verification scenarios -/

/-- A transport that answers every request with a fixed 200 JSON
response; file loading and check compilation are unused by the
scenarios below and fail loudly if reached. -/
def httpOk : Externals :=
  { transport := fun _ _ _ _ =>
      { status := 200, headers := [("content-type", "application/json")],
        body := .obj [("ok", .bool true)] },
    loadInclude := fun _ => .error "ENOENT: no such file",
    checkEval := fun _ _ => .error "Missing helper",
    jsonPath := fun _ _ => none,
    deepGet := fun _ _ => .undef,
    encodeURIComp := id }

/-- The single declared server of the scenarios. -/
def mainServer : ZServer := { name := "main", base := "http://x/" }

/-- Options with both continuation flags at their default (off). -/
def baseOpts : ZOpts := { servers := [mainServer], defServer := "main" }

/-- Options with both continuation flags set. -/
def bothFlagsOpts : ZOpts :=
  { baseOpts with continueOnInvalid := true, continueOnError := true }

/-- Options with only `continueOnError` set. -/
def errFlagOpts : ZOpts := { baseOpts with continueOnError := true }

/-- Options with only `continueOnInvalid` set. -/
def invFlagOpts : ZOpts := { baseOpts with continueOnInvalid := true }

/-- A plain GET request step. -/
def simpleLeaf : ZStep := leafStep { get := some "item" }

/-- The loop of claim scenario C1: literal items `["a","b","c"]`, item
binding `v`, index binding `i`, one nested leaf request step. -/
def abcLoopStep : ZStep := ZStep.mk { step := some "abc-loop" }
  (some { items := some (.arr [.str "a", .str "b", .str "c"]),
          varName := "v", indexVarName := some "i" })
  (some [simpleLeaf]) none

/-- The C1 scenario run. -/
def abcLoopRun : Except RErr (List StepResult × RState) :=
  runScriptSteps httpOk baseOpts 10 [abcLoopStep] {}

/-- The recorded results of a run (empty when the run threw). -/
def runResults : Except RErr (List StepResult × RState) → List StepResult
  | .ok (rs, _) => rs
  | .error _ => []

/-- The final variable map of a run (empty when the run threw). -/
def runFinalVars : Except RErr (List StepResult × RState) → List (String × JVal)
  | .ok (_, st) => st.vars
  | .error _ => []

/-- The error message of a failed run. -/
def runErrMsg : Except RErr (List StepResult × RState) → Option String
  | .error e => some e.msg
  | .ok _ => none

/-- The check details carried by a failed run's error. -/
def runErrDetails : Except RErr (List StepResult × RState) → List Detail
  | .error e => e.details
  | .ok _ => []

/-- A leaf step that writes the pre-existing variable `pre` (step.ts
lines 88-94 write step vars into the executing scope). -/
def setterStep : ZStep := ZStep.mk
  { step := some "setter", vars := some [("pre", .str "new")],
    request := some { get := some "y" } } none none none

/-- A one-iteration loop around `setterStep`. -/
def loopWithSetter : ZStep := ZStep.mk {}
  (some { items := some (.arr [.str "x"]), varName := "it" })
  (some [setterStep]) none

/-- An include (by value) of a script running `setterStep`. -/
def incWithSetter : ZStep := ZStep.mk {} none none
  (some (.inr ({ script := "sub" }, [setterStep])))

/-- The C2 loop scenario: `pre` starts as "old". -/
def loopSetterRun : Except RErr (List StepResult × RState) :=
  runScriptSteps httpOk baseOpts 10 [loopWithSetter] { vars := [("pre", .str "old")] }

/-- The C2 include scenario: `pre` starts as "old". -/
def incSetterRun : Except RErr (List StepResult × RState) :=
  runScriptSteps httpOk baseOpts 10 [incWithSetter] { vars := [("pre", .str "old")] }

/-- A step naming a server that is not declared. -/
def badServerStep : ZStep := ZStep.mk
  { step := some "bad", server := some "nope",
    request := some { get := some "x" } } none none none

/-- A step with neither request, loop nor include. -/
def noReqStep : ZStep := ZStep.mk { step := some "malformed" } none none none

/-- A loop step whose item source names a variable that is no array. -/
def badItemsStep : ZStep := ZStep.mk { step := some "badloop" }
  (some { items := some (.var "nosuch"), varName := "v" })
  (some [simpleLeaf]) none

/-- The C3 missing-server scenario under both continuation flags. -/
def badServerRun : Except RErr (List StepResult × RState) :=
  runScriptSteps httpOk bothFlagsOpts 10 [badServerStep, simpleLeaf] {}

/-- The C3 non-array-items scenario under both continuation flags. -/
def badItemsRun : Except RErr (List StepResult × RState) :=
  runScriptSteps httpOk bothFlagsOpts 10 [badItemsStep, simpleLeaf] {}

/-- The C3 missing-server scenario with both flags off. -/
def badServerFatalRun : Except RErr (List StepResult × RState) :=
  runScriptSteps httpOk baseOpts 10 [badServerStep, simpleLeaf] {}

/-- A step declaring `status: 404` against the 200-transport. -/
def status404Step : ZStep := ZStep.mk
  { step := some "expect404", request := some { get := some "x" },
    response := some { status := some 404 } } none none none

/-- C4 scenario: status mismatch, `continueOnInvalid` off but
`continueOnError` on. -/
def c4ContinueErrRun : Except RErr (List StepResult × RState) :=
  runScriptSteps httpOk errFlagOpts 10 [status404Step, simpleLeaf] {}

/-- C4 scenario: status mismatch with both flags off. -/
def c4FatalRun : Except RErr (List StepResult × RState) :=
  runScriptSteps httpOk baseOpts 10 [status404Step, simpleLeaf] {}

/-- C4 scenario: status mismatch with `continueOnInvalid` on. -/
def c4InvalidOkRun : Except RErr (List StepResult × RState) :=
  runScriptSteps httpOk invFlagOpts 10 [status404Step, simpleLeaf] {}

/-- A do-nothing handler function for handler-registration fixtures. -/
def idHandlerFunc : HFunc := fun res _ vfh => .ok (res, vfh)

/-- C8 scenario: a caller variable map holding two objects by reference. -/
def w8vars : List (String × RVal) := [("kept", RVal.ref 0), ("obj", RVal.ref 1)]

/-- C8 scenario: the handler scope object as the handler left it — the
pre-existing entries (`obj` reassigned to a fresh primitive), the
injected `res`/`body` keys, and a freshly introduced key `fresh`. -/
def w8vfh : List (String × RVal) :=
  [("kept", RVal.ref 0), ("obj", RVal.prim (JVal.num 9)),
   ("res", RVal.prim JVal.undef), ("body", RVal.prim JVal.undef),
   ("fresh", RVal.prim (JVal.num 5))]

/-- C8 scenario: the heap after the handler mutated every object in
place. -/
def w8heap : Heap := fun _ => JVal.obj [("mut", JVal.num 7)]

/-! ## Helper lemmas -/

/-- Writing a key makes it readable. -/
theorem alookup_aset_self {α : Type} (m : List (String × α)) (k : String) (v : α) :
    alookup (aset m k v) k = some v := by
  induction m with
  | nil => simp [aset, alookup]
  | cons hd t ih =>
      obtain ⟨k', w⟩ := hd
      by_cases hk : k' = k
      · simp [aset, hk, alookup]
      · simp [aset, hk, alookup, ih]

/-- Writing one key leaves other keys unchanged. -/
theorem alookup_aset_ne {α : Type} (m : List (String × α)) (k k' : String) (v : α)
    (h : k ≠ k') : alookup (aset m k v) k' = alookup m k' := by
  induction m with
  | nil => simp [aset, alookup, h]
  | cons hd t ih =>
      obtain ⟨k₀, w⟩ := hd
      by_cases hk : k₀ = k
      · subst hk; simp [aset, alookup, h]
      · by_cases hk' : k₀ = k'
        · subst hk'
          have hne : ¬(k₀ = k) := hk
          have hne' : ¬(k₀ = k) := fun he => h he.symm
          simp [aset, hne, alookup]
        · simp [aset, hk, alookup, hk', ih]

/-- A spread unfolds one entry at a time. -/
theorem aspread_cons {α : Type} (a : List (String × α)) (x : String × α)
    (b : List (String × α)) : aspread a (x :: b) = aspread (aset a x.1 x.2) b := rfl

/-- Spreading entries whose keys avoid `k` leaves `k` unchanged. -/
theorem alookup_aspread_notin {α : Type} (b a : List (String × α)) (k : String)
    (h : k ∉ b.map Prod.fst) : alookup (aspread a b) k = alookup a k := by
  induction b generalizing a with
  | nil => rfl
  | cons hd tl ih =>
      simp only [List.map_cons, List.mem_cons] at h
      push_neg at h
      rw [aspread_cons, ih _ h.2, alookup_aset_ne _ _ _ _ (fun he => h.1 he.symm)]

/-- A successful lookup means the key occurs. -/
theorem alookup_some_mem {α : Type} (m : List (String × α)) (k : String) (v : α)
    (h : alookup m k = some v) : k ∈ m.map Prod.fst := by
  induction m with
  | nil => simp [alookup] at h
  | cons hd t ih =>
      obtain ⟨k₀, w⟩ := hd
      by_cases hk : k₀ = k
      · simp [hk]
      · simp only [alookup, hk, if_false] at h
        simp [ih h]

/-- Membership gives a positive `contains` test. -/
theorem contains_of_mem (l : List String) (k : String) (h : k ∈ l) :
    l.contains k = true := by
  simpa using h

/-- The handler merge-back processes the scope object entry by entry. -/
theorem mergeNewKeys_cons (origKeys : List String) (k0 : String) (v0 : RVal)
    (tl : List (String × RVal)) (cx vars : List (String × RVal)) :
    mergeNewKeys origKeys ((k0, v0) :: tl) cx vars =
      if origKeys.contains k0 then mergeNewKeys origKeys tl cx vars
      else mergeNewKeys origKeys tl (aset cx k0 v0) (aset vars k0 v0) := by
  unfold mergeNewKeys
  rw [List.foldl_cons]
  dsimp only
  by_cases h : origKeys.contains k0
  · rw [if_pos h, if_pos h]
  · rw [if_neg h, if_neg h]

/-- The merge-back never touches a key that pre-existed in the handler
scope object: the caller binding for such a key is left unchanged. -/
theorem mergeNewKeys_old (origKeys : List String) (vfh : List (String × RVal))
    (k : String) (hk : origKeys.contains k = true) :
    ∀ cx vars, alookup (mergeNewKeys origKeys vfh cx vars).2 k = alookup vars k := by
  induction vfh with
  | nil => intro cx vars; rfl
  | cons hd tl ih =>
      obtain ⟨k0, v0⟩ := hd
      intro cx vars
      rw [mergeNewKeys_cons]
      by_cases hc : origKeys.contains k0
      · rw [if_pos hc]; exact ih cx vars
      · rw [if_neg hc, ih]
        refine alookup_aset_ne _ _ _ _ (fun he => ?_)
        rw [he, hk] at hc
        exact hc rfl

/-- The merge-back leaves a key unchanged when the scope object never
mentions it. -/
theorem mergeNewKeys_notkey (origKeys : List String) (vfh : List (String × RVal))
    (k : String) (hk : ∀ p ∈ vfh, p.1 ≠ k) :
    ∀ cx vars, alookup (mergeNewKeys origKeys vfh cx vars).2 k = alookup vars k := by
  induction vfh with
  | nil => intro cx vars; rfl
  | cons hd tl ih =>
      obtain ⟨k0, v0⟩ := hd
      intro cx vars
      have htl : ∀ p ∈ tl, p.1 ≠ k := fun p hp => hk p (List.mem_cons_of_mem _ hp)
      have hk0 : k0 ≠ k := hk (k0, v0) (List.mem_cons_self _ _)
      rw [mergeNewKeys_cons]
      by_cases hc : origKeys.contains k0
      · rw [if_pos hc]; exact ih htl cx vars
      · rw [if_neg hc, ih htl, alookup_aset_ne _ _ _ _ hk0]

/-- The merge-back writes every genuinely new scope key into the caller
variable map. -/
theorem mergeNewKeys_new (origKeys : List String) (vfh : List (String × RVal))
    (k : String) (v : RVal) (hk : origKeys.contains k = false)
    (hnd : (vfh.map Prod.fst).Nodup) (hmem : (k, v) ∈ vfh) :
    ∀ cx vars, alookup (mergeNewKeys origKeys vfh cx vars).2 k = some v := by
  induction vfh with
  | nil => cases hmem
  | cons hd tl ih =>
      obtain ⟨k0, v0⟩ := hd
      intro cx vars
      rw [mergeNewKeys_cons]
      simp only [List.map_cons, List.nodup_cons] at hnd
      rcases List.mem_cons.mp hmem with he | hm
      · injection he with h1 h2
        subst h1
        subst h2
        rw [if_neg (fun hc => by rw [hk] at hc; exact Bool.noConfusion hc)]
        have htl : ∀ p ∈ tl, p.1 ≠ k := by
          intro p hp hpe
          exact hnd.1 (hpe ▸ List.mem_map_of_mem Prod.fst hp)
        rw [mergeNewKeys_notkey _ _ _ htl, alookup_aset_self]
      · by_cases hc : origKeys.contains k0
        · rw [if_pos hc]; exact ih hnd.2 hm cx vars
        · rw [if_neg hc]; exact ih hnd.2 hm _ _

/-- Digits produced by `natDigits` stay below char code 58. -/
theorem natDigits_chars : ∀ fuel n c, c ∈ natDigits fuel n → c.toNat < 58 := by
  intro fuel
  induction fuel with
  | zero => intro n c hc; simp [natDigits] at hc
  | succ f ih =>
      intro n c hc
      simp only [natDigits] at hc
      by_cases h : n < 10
      · rw [if_pos h] at hc
        simp only [List.mem_singleton] at hc
        subst hc
        interval_cases n <;> decide
      · rw [if_neg h] at hc
        rcases List.mem_append.mp hc with h1 | h2
        · exact ih _ c h1
        · simp only [List.mem_singleton] at h2
          subst h2
          have hm : n % 10 < 10 := Nat.mod_lt _ (by omega)
          interval_cases hmod : n % 10 <;> simp_all

/-- `natDigits` with positive fuel is never empty. -/
theorem natDigits_ne_nil (fuel n : Nat) : natDigits (fuel + 1) n ≠ [] := by
  simp only [natDigits]
  by_cases h : n < 10 <;> simp [h]

/-- The JS string form of a number never reads "[object Object]". -/
theorem numToString_ne_obj (q : Rat) : numToString q ≠ "[object Object]" := by
  have hchars : ∀ r : Rat, ∃ c cs, nonnegRatChars r = c :: cs ∧ c.toNat < 58 := by
    intro r
    unfold nonnegRatChars
    set m := r.num.toNat / r.den with hm
    have hne := natDigits_ne_nil m m
    obtain ⟨c, cs, hcs⟩ := List.exists_cons_of_ne_nil hne
    have hcmem : c ∈ natDigits (m + 1) m := by rw [hcs]; exact List.mem_cons_self _ _
    have hlt := natDigits_chars (m + 1) m c hcmem
    by_cases h : r.num.toNat % r.den = 0
    · exact ⟨c, cs, by simp only [h, if_pos rfl]; exact hcs, hlt⟩
    · refine ⟨c, cs ++ '.' :: decDigits (r.num.toNat % r.den) r.den 40, ?_, hlt⟩
      simp only [if_neg h]
      rw [hcs]
      rfl
  unfold numToString
  by_cases hq : q < 0
  · rw [if_pos hq]
    intro hEq
    have := congrArg String.data hEq
    simp only [String.mk] at this
    have : '-' = '[' := by
      have h2 : ('-' :: nonnegRatChars (-q)) = "[object Object]".data := this
      simpa using congrArg List.head? h2
    exact absurd this (by decide)
  · rw [if_neg hq]
    intro hEq
    obtain ⟨c, cs, hcs, hlt⟩ := hchars q
    have hdata : nonnegRatChars q = "[object Object]".data := congrArg String.data hEq
    rw [hcs] at hdata
    have : c = '[' := by simpa using congrArg List.head? hdata
    subst this
    exact absurd hlt (by decide)

/-! ## C1: loop result recording -/

/-- C1 counterexample: a loop over the literal `["a","b","c"]` with one
nested leaf request step appends 4 StepResults, not 3 — after the three
re-tagged leaf results, step.ts lines 327-337 unconditionally push one
more, status-less result for the loop container itself (the project's
own tests assert this 3+1 shape). -/
theorem C1_counterexample :
    (runResults abcLoopRun).length = 4 ∧
    (runResults abcLoopRun).map (fun r => r.status) =
      [some 200, some 200, some 200, none] :=
  ⟨rfl, rfl⟩

/-- C1 (amended): a loop over the literal `["a","b","c"]` (no start
offset) with one nested leaf request step appends exactly 4 StepResults:
one per item — with `vars[varName]` the corresponding item and
`vars[indexVarName]` 0, 1, 2 — plus a final status-less result for the
loop container itself; all four are tagged with the loop step. -/
theorem C1_loop_results :
    (runResults abcLoopRun).map
        (fun r => (r.status, alookup r.vars "v", alookup r.vars "i",
                   r.validation.result)) =
      [(some 200, some (.str "a"), some (.num 0), true),
       (some 200, some (.str "b"), some (.num 1), true),
       (some 200, some (.str "c"), some (.num 2), true),
       (none, none, none, true)] ∧
    (runResults abcLoopRun).map (fun r => r.step) =
      [abcLoopStep, abcLoopStep, abcLoopStep, abcLoopStep] :=
  ⟨rfl, rfl⟩

/-! ## C2: scope propagation out of loops and includes -/

/-- C2 counterexample: a nested step inside a one-iteration loop writes
the pre-existing variable `pre` (its own result snapshot shows the new
value), yet after the loop container returns the caller's variable map
still holds the old value — the loop's forked shallow copy does not
propagate reassignments back. -/
theorem C2_counterexample :
    (runResults loopSetterRun).map (fun r => alookup r.vars "pre") =
      [some (.str "new"), some (.str "old")] ∧
    alookup (runFinalVars loopSetterRun) "pre" = some (.str "old") :=
  ⟨rfl, rfl⟩

/-- C2 (amended): loop iterations run over a forked shallow copy of the
caller's variable map (diverging in the loop bindings), and writes the
iteration makes to pre-existing names are **not** visible to the caller
after the loop returns; includes do not fork at all — they run on the
caller's very map, so the same write is visible to the caller once the
include returns. -/
theorem C2_scope_propagation :
    (runResults loopSetterRun).map (fun r => alookup r.vars "pre") =
      [some (.str "new"), some (.str "old")] ∧
    alookup (runFinalVars loopSetterRun) "pre" = some (.str "old") ∧
    (runResults incSetterRun).map (fun r => alookup r.vars "pre") =
      [some (.str "new"), some (.str "new")] ∧
    alookup (runFinalVars incSetterRun) "pre" = some (.str "new") :=
  ⟨rfl, rfl, rfl, rfl⟩

/-! ## C3: structural errors vs continuation flags -/

/-- C3 counterexample: with both continuation flags set, a step whose
server name resolves to no declared server does not abort the run — the
error is recorded as a synthetic `runtime` StepResult with status 0 and
the next step executes, exactly like any other runtime error. -/
theorem C3_counterexample :
    (runResults badServerRun).map (fun r => (r.status, r.validation.name)) =
      [(some 0, "error"), (some 200, "combined-validations")] ∧
    (runResults badServerRun).map
        (fun r => r.validation.details.map (fun d => (d.name, d.error))) =
      [[("runtime", some "server not found for step bad")], [("status", none)]] :=
  ⟨rfl, rfl⟩

/-- C3 (amended): only step-preprocessing errors (a step with no
request/loop/include, no URI, an unregistered handler name) are fatal
regardless of both continuation flags, because they are thrown while
mapping the steps, before the per-step try/catch.  The other structural
errors — an unresolved server name, a loop item source that is not an
array — are thrown inside the per-step try and are therefore suppressed
by `continueOnError` (recorded as a status-0 `runtime` result, run
continues); they abort the run only when `continueOnError` is off. -/
theorem C3_structural_errors :
    (∀ (ext : Externals) (opts : ZOpts) (fuel : Nat) (rest : List ZStep) (st : RState),
      runScriptSteps ext opts (fuel + 1) (noReqStep :: rest) st =
        .error { msg := "ERROR No request property for step=malformed", state := st }) ∧
    (runResults badServerRun).map (fun r => r.status) = [some 0, some 200] ∧
    (runResults badItemsRun).map
        (fun r => (r.status, r.validation.details.map (fun d => (d.name, d.error)))) =
      [(some 0, [("runtime", some "step=badloop loop.items is not an array")]),
       (some 200, [("status", none)])] ∧
    runErrMsg badServerFatalRun = some "server not found for step bad" := by
  refine ⟨?_, rfl, rfl, rfl⟩
  intro ext opts fuel rest st
  simp only [runScriptSteps, List.mapM, List.mapM.loop, processStep, noReqStep,
    ZStep.core, ZStep.loop, ZStep.inc, Bind.bind, Except.bind]
  rfl

/-! ## C4: status validation and its continuation behaviour -/

/-- C4 counterexample: a step declaring `status: 404` against a 200
response, with `continueOnInvalid` off but `continueOnError` on, does
not make the run throw before subsequent steps: the validation-failure
throw is caught by the same step's catch, recorded as a status-0 result
(whose details contain the failed `status` entry plus the synthetic
`runtime` entry), and the next step executes. -/
theorem C4_counterexample :
    (runResults c4ContinueErrRun).map (fun r => r.status) = [some 0, some 200] ∧
    (runResults c4ContinueErrRun).map
        (fun r => r.validation.details.map (fun d => (d.name, d.result))) =
      [[("status", false), ("runtime", false)], [("status", true)]] :=
  ⟨rfl, rfl⟩

/-- C4 (amended): status validation passes exactly when the response
status equals the declared `status` when a nonzero one is given (a
declared 0 is falsy and ignored), and otherwise when
`floor(status/100)+"xx"` equals the declared `statusClass` (default
"2xx").  On mismatch the step's validation carries a false `status`
detail; when `continueOnInvalid` and `continueOnError` are both off the
run throws before any subsequent step executes (the thrown error carries
the detail list), while `continueOnInvalid` alone being off does not
abort if `continueOnError` is on, and with `continueOnInvalid` on the
failure is recorded and the run continues. -/
theorem C4_status_validation :
    (∀ (resp : Option ZResponse) (status s : Nat),
      (resp.bind (fun r => r.status) = some s → s ≠ 0 →
        (statusPass resp status = true ↔ status = s)) ∧
      (resp.bind (fun r => r.status) = none →
        (statusPass resp status = true ↔
          toString (status / 100) ++ "xx" =
            (resp.bind (fun r => r.statusClass)).getD "2xx"))) ∧
    runErrMsg c4FatalRun = some "validation failed in step expect404" ∧
    runErrDetails c4FatalRun =
      [{ name := "status", check := "status 200", result := false }] ∧
    runResults c4FatalRun = [] ∧
    (runResults c4InvalidOkRun).map
        (fun r => (r.status, r.validation.result,
                   r.validation.details.map (fun d => (d.name, d.result)))) =
      [(some 200, false, [("status", false)]), (some 200, true, [("status", true)])] := by
  refine ⟨?_, rfl, rfl, rfl, rfl⟩
  intro resp status s
  constructor
  · intro hs hnz
    simp [statusPass, hs, hnz]
  · intro hn
    simp [statusPass, hn]

/-- C4 witness: the amended status rule applied at the scenario's
concrete step — declared 404 against a 200 response fails, and with no
declared status a 200 response passes the default "2xx" class. -/
theorem C4_status_validation_witness :
    (statusPass (some { status := some 404 }) 200 = true ↔ 200 = 404) ∧
    (statusPass (some {}) 200 = true ↔ toString (200 / 100) ++ "xx" =
      ((some ({} : ZResponse)).bind (fun r => r.statusClass)).getD "2xx") :=
  ⟨(C4_status_validation.1 (some { status := some 404 }) 200 404).1 rfl (by decide),
   (C4_status_validation.1 (some {}) 200 404).2 rfl⟩

/-! ## C5: comparison operator typing and coercion -/

/-- With a relational or plain string operator (not `includes`), a
numeric left and string right operand dispatch on the coerced pair. -/
theorem compare_coerce_left (op : String) (q : Rat) (s : String)
    (hop : op ∈ ([">", ">=", "<", "<=", "startsWith", "notStartsWith",
      "endsWith", "notEndsWith"] : List String)) :
    compare (.num q) op (.str s) =
      compareDispatch op (.num q) (coerceNumericString s) := by
  fin_cases hop <;> rfl

/-- A string left operand passes every guard, so with a numeric right
operand all ten binary operators dispatch on the coerced pair. -/
theorem compare_coerce_right (op : String) (q : Rat) (s : String)
    (hop : op ∈ ([">", ">=", "<", "<=", "startsWith", "notStartsWith",
      "endsWith", "notEndsWith", "includes", "notIncludes"] : List String)) :
    compare (.str s) op (.num q) =
      compareDispatch op (coerceNumericString s) (.num q) := by
  fin_cases hop <;> rfl

/-- Two numeric operands dispatch without coercion (not `includes`,
whose guard rejects a numeric left operand). -/
theorem compare_num_num (op : String) (a b : Rat)
    (hop : op ∈ ([">", ">=", "<", "<=", "startsWith", "notStartsWith",
      "endsWith", "notEndsWith"] : List String)) :
    compare (.num a) op (.num b) = compareDispatch op (.num a) (.num b) := by
  fin_cases hop <;> rfl

/-- C5 counterexample: the `includes` operator accepts an array left
operand without raising any error (its guard in helpers.js lines 22-26
admits strings, arrays and objects on the left), so the claim that the
string-family operators require both operands to be string or number —
raising a descriptive error otherwise — is false. -/
theorem C5_counterexample :
    compare (.arr [.num 1, .num 2]) "includes" (.num 2) = .ok true := rfl

/-- C5 (amended): the ordering operators require both operands to be
string or number, raising a descriptive error naming the operator and
the offending operand; `includes`/`notIncludes` instead admit a string,
array or object left operand — an array left operand compares elements
by strict equality with no error, while a numeric left operand is
rejected by their guard before any coercion.  When exactly one operand
is a number and the other a numeric-looking string, the string operand
is coerced to a number (integer parse when its lowercased form has no
`.` and no `e`, float parse otherwise) before the operator table is
consulted — for the ordering and string operators this makes comparing
against the string operand the same as comparing against its parsed
number; in particular `eq(42, "42")` is true and `gt("10", 9)` is true.
The named helpers `gt`/`gte`/`lt`/`lte` delegate to the corresponding
raw operators. -/
theorem C5_compare_coercion :
    (∀ (op : String) (l r : JVal),
      op ∈ ([">", ">=", "<", "<="] : List String) →
      (isComparable l = false →
        compare l op r = .error ("operator " ++ op ++
          " requires string | number operands: invalid left operand: " ++
          jsToString l)) ∧
      (isComparable l = true → isComparable r = false →
        compare l op r = .error ("operator " ++ op ++
          " requires string | number operands: invalid right operand: " ++
          jsToString r))) ∧
    (∀ (op : String) (q : Rat) (s : String),
      op ∈ ([">", ">=", "<", "<=", "startsWith", "notStartsWith",
        "endsWith", "notEndsWith"] : List String) →
      isJsonNumberString (jsToLower s) = true →
      compare (.num q) op (.str s) =
        compare (.num q) op
          (.num (if strHasChar (jsToLower s) '.' || strHasChar (jsToLower s) 'e'
                 then parseJsonRat (jsToLower s) else parseJsonInt (jsToLower s))) ∧
      compare (.str s) op (.num q) =
        compare (.num (if strHasChar (jsToLower s) '.' || strHasChar (jsToLower s) 'e'
                 then parseJsonRat (jsToLower s) else parseJsonInt (jsToLower s)))
          op (.num q)) ∧
    (∀ (op : String) (q : Rat) (s : String),
      op ∈ (["includes", "notIncludes"] : List String) →
      isJsonNumberString (jsToLower s) = true →
      compare (.str s) op (.num q) =
        compareDispatch op
          (.num (if strHasChar (jsToLower s) '.' || strHasChar (jsToLower s) 'e'
                 then parseJsonRat (jsToLower s) else parseJsonInt (jsToLower s)))
          (.num q)) ∧
    (∀ (op : String) (q : Rat) (r : JVal),
      op ∈ (["includes", "notIncludes"] : List String) →
      compare (.num q) op r = .error ("operator " ++ op ++
        " requires string | array | object operands: invalid left operand: " ++
        jsToString (.num q))) ∧
    (∀ (xs : List JVal) (r : JVal), isComparable r = true →
      compare (.arr xs) "includes" r = .ok (xs.any (fun x => strictEqPrim x r))) ∧
    opHelper "eq" (.num 42) (.str "42") = .ok true ∧
    opHelper "gt" (.str "10") (.num 9) = .ok true ∧
    (∀ (l r : JVal),
      opHelper "gt" l r = compare l ">" r ∧
      opHelper "gte" l r = compare l ">=" r ∧
      opHelper "lt" l r = compare l "<" r ∧
      opHelper "lte" l r = compare l "<=" r) := by
  refine ⟨?_, ?_, ?_, ?_, ?_, rfl, rfl, fun l r => ⟨rfl, rfl, rfl, rfl⟩⟩
  · intro op l r hop
    fin_cases hop <;>
      exact ⟨fun hl => by
          cases l <;> first | exact Bool.noConfusion hl | rfl,
        fun hl hr => by
          cases l <;> cases r <;>
            first | exact Bool.noConfusion hl | exact Bool.noConfusion hr | rfl⟩
  · intro op q s hop hnum
    have hcoerce : coerceNumericString s = .num
        (if strHasChar (jsToLower s) '.' || strHasChar (jsToLower s) 'e'
         then parseJsonRat (jsToLower s) else parseJsonInt (jsToLower s)) := by
      simp only [coerceNumericString, hnum, if_true]
      split <;> rfl
    have h10 : op ∈ ([">", ">=", "<", "<=", "startsWith", "notStartsWith",
        "endsWith", "notEndsWith", "includes", "notIncludes"] : List String) := by
      fin_cases hop <;> decide
    constructor
    · rw [compare_coerce_left op q s hop, hcoerce, compare_num_num op q _ hop]
    · rw [compare_coerce_right op q s h10, hcoerce, compare_num_num op _ q hop]
  · intro op q s hop hnum
    have hcoerce : coerceNumericString s = .num
        (if strHasChar (jsToLower s) '.' || strHasChar (jsToLower s) 'e'
         then parseJsonRat (jsToLower s) else parseJsonInt (jsToLower s)) := by
      simp only [coerceNumericString, hnum, if_true]
      split <;> rfl
    have h10 : op ∈ ([">", ">=", "<", "<=", "startsWith", "notStartsWith",
        "endsWith", "notEndsWith", "includes", "notIncludes"] : List String) := by
      fin_cases hop <;> decide
    rw [compare_coerce_right op q s h10, hcoerce]
  · intro op q r hop
    fin_cases hop <;> rfl
  · intro xs r hr
    cases r <;> first | exact Bool.noConfusion hr | rfl

/-- C5 witness: the amended rules applied at concrete operands — a
boolean left operand of an ordering operator errors, a boolean right
operand errors, the numeric-looking string "9" is coerced before an
ordering comparison, a numeric left operand of `includes` errors, and
an array left operand of `includes` is element membership. -/
theorem C5_compare_coercion_witness :
    compare (.bool true) ">" (.num 0) =
      .error ("operator " ++ ">" ++
        " requires string | number operands: invalid left operand: " ++
        jsToString (.bool true)) ∧
    compare (.num 1) ">" (.bool true) =
      .error ("operator " ++ ">" ++
        " requires string | number operands: invalid right operand: " ++
        jsToString (.bool true)) ∧
    compare (.num 10) ">" (.str "9") =
      compare (.num 10) ">" (.num (parseJsonInt (jsToLower "9"))) ∧
    compare (.num 1) "includes" (.str "x") =
      .error ("operator " ++ "includes" ++
        " requires string | array | object operands: invalid left operand: " ++
        jsToString (.num 1)) ∧
    compare (.arr [.num 1]) "includes" (.num 1) =
      .ok ([JVal.num 1].any (fun x => strictEqPrim x (.num 1))) :=
  ⟨(C5_compare_coercion.1 ">" (.bool true) (.num 0) (by decide)).1 rfl,
   (C5_compare_coercion.1 ">" (.num 1) (.bool true) (by decide)).2 rfl rfl,
   (C5_compare_coercion.2.1 ">" 10 "9" (by decide) (by decide)).1,
   C5_compare_coercion.2.2.2.1 "includes" 1 (.str "x") (by decide),
   C5_compare_coercion.2.2.2.2.1 [.num 1] (.num 1) rfl⟩

/-! ## C6: template substitution vs JS string coercion -/

/-- Boolean cleanup for the bare-expression test (its two structural
conjuncts are true on this template). -/
theorem bool_and_tt (e t : Bool) : (((e && true) && true) && t) = (e && t) := by
  cases e <;> cases t <;> rfl

/-- On the bare template `\x7b\x7bx\x7d\x7d`, `walk` reduces to the
bare-object test of helpers.js lines 134-139 applied to the bound
value (for values that do not render empty). -/
theorem walk_x_form (v : JVal) (h1 : v ≠ .null) (h2 : v ≠ .undef) :
    walk (.str "{{x}}") [("x", v)] =
      (if (jsToString v == "[object Object]") && v.truthy then v
       else .str (jsToString v)) := by
  cases v with
  | null => exact absurd rfl h1
  | undef => exact absurd rfl h2
  | bool b =>
      rw [show walk (.str "{{x}}") [("x", JVal.bool b)] =
        (if (((jsToString (JVal.bool b) == "[object Object]") && true) && true) &&
            (JVal.bool b).truthy then JVal.bool b
         else .str (jsToString (JVal.bool b))) from rfl, bool_and_tt]
  | num q =>
      rw [show walk (.str "{{x}}") [("x", JVal.num q)] =
        (if (((jsToString (JVal.num q) == "[object Object]") && true) && true) &&
            (JVal.num q).truthy then JVal.num q
         else .str (jsToString (JVal.num q))) from rfl, bool_and_tt]
  | str s =>
      rw [show walk (.str "{{x}}") [("x", JVal.str s)] =
        (if (((jsToString (JVal.str s) == "[object Object]") && true) && true) &&
            (JVal.str s).truthy then JVal.str s
         else .str (jsToString (JVal.str s))) from rfl, bool_and_tt]
  | arr xs =>
      rw [show walk (.str "{{x}}") [("x", JVal.arr xs)] =
        (if (((jsToString (JVal.arr xs) == "[object Object]") && true) && true) &&
            (JVal.arr xs).truthy then JVal.arr xs
         else .str (jsToString (JVal.arr xs))) from rfl, bool_and_tt]
  | obj fs =>
      rw [show walk (.str "{{x}}") [("x", JVal.obj fs)] =
        (if (((jsToString (JVal.obj fs) == "[object Object]") && true) && true) &&
            (JVal.obj fs).truthy then JVal.obj fs
         else .str (jsToString (JVal.obj fs))) from rfl, bool_and_tt]

/-- A non-null value whose JS string form is "[object Object]" is
truthy (it is an object, a non-empty string, or an array). -/
theorem truthy_of_objStr (v : JVal) (hnull : v ≠ .null) (hundef : v ≠ .undef)
    (h : jsToString v = "[object Object]") : v.truthy = true := by
  cases v with
  | null => exact absurd rfl hnull
  | undef => exact absurd rfl hundef
  | num q => exact absurd h (numToString_ne_obj q)
  | bool b => cases b <;> exact absurd h (by decide)
  | str s =>
      simp only [jsToString] at h
      subst h
      rfl
  | arr xs => rfl
  | obj fs => rfl

/-- C6 counterexample: rendering `\x7b\x7bx\x7d\x7d` with `x` bound to
`null` produces the empty string, while JS `String(null)` is "null" —
so the claim that the rendering always matches `String(v)` (apart from
the bare-object case) fails at `v = null`. -/
theorem C6_counterexample :
    walk (.str "{{x}}") [("x", JVal.null)] = .str "" ∧
    jsToString JVal.null = "null" :=
  ⟨rfl, rfl⟩

/-- C6 (amended): for every literal scope value `v` other than `null`
and `undefined` (which render as the empty string), walking the bare
template `\x7b\x7bx\x7d\x7d` with `x` bound to `v` produces exactly
`String(v)` — except when `String(v)` is the literal text
"[object Object]" (a plain object, an array stringifying to that text,
or that very string), in which case `walk` returns the referenced value
`v` itself, unstringified.  URL and header construction do not go
through `walk`, so this replacement applies to body/variable values
only. -/
theorem C6_bare_substitution (v : JVal) (hnull : v ≠ .null) (hundef : v ≠ .undef) :
    walk (.str "{{x}}") [("x", v)] =
      (if jsToString v = "[object Object]" then v else .str (jsToString v)) := by
  rw [walk_x_form v hnull hundef]
  by_cases h : jsToString v = "[object Object]"
  · rw [if_pos h, truthy_of_objStr v hnull hundef h]
    simp [h]
  · rw [if_neg h]
    have hb : (jsToString v == "[object Object]") = false := by
      simp [h]
    rw [hb]
    simp

/-- C6 witness: the amended rule applied at a plain object, a boolean
and a number — the object comes back unstringified, the others render
as their JS string forms. -/
theorem C6_bare_substitution_witness :
    walk (.str "{{x}}") [("x", JVal.obj [("a", .num 1)])] =
      (if jsToString (JVal.obj [("a", .num 1)]) = "[object Object]"
       then JVal.obj [("a", .num 1)] else .str (jsToString (JVal.obj [("a", .num 1)]))) ∧
    walk (.str "{{x}}") [("x", JVal.bool false)] =
      (if jsToString (JVal.bool false) = "[object Object]"
       then JVal.bool false else .str (jsToString (JVal.bool false))) ∧
    walk (.str "{{x}}") [("x", JVal.num 42)] =
      (if jsToString (JVal.num 42) = "[object Object]"
       then JVal.num 42 else .str (jsToString (JVal.num 42))) :=
  ⟨C6_bare_substitution (JVal.obj [("a", .num 1)]) (by simp) (by simp),
   C6_bare_substitution (JVal.bool false) (by simp) (by simp),
   C6_bare_substitution (JVal.num 42) (by simp) (by simp)⟩

/-! ## C7: unresolved template paths -/

/-- C7 counterexample: rendering a template whose path does not resolve
in the scope substitutes the empty string — `evalTpl` is total and
raises no TemplateError (Handlebars non-strict default). -/
theorem C7_counterexample :
    evalTpl "{{missing}}" [("other", .num 1)] = "" ∧
    evalTpl "a-{{missing}}-b" [("other", .num 1)] = "a--b" :=
  ⟨rfl, rfl⟩

/-- C7 (amended): a `\x7b\x7bpath\x7d\x7d` placeholder whose path does
not resolve in the scope renders as the empty string (the surrounding
literal text is kept), rather than failing with a TemplateError —
rendering is total. -/
theorem C7_unresolved_renders_empty :
    (∀ (ctx : List (String × JVal)) (pre path post : String),
      lookupPath ctx (jsTrim path) = none →
      renderSegs ctx [.lit pre, .mustache path, .lit post] = pre ++ post) ∧
    evalTpl "{{missing}}" [("other", .num 1)] = "" := by
  refine ⟨?_, rfl⟩
  intro ctx pre path post h
  simp [renderSegs, renderSeg, h, String.join]

/-- C7 witness: the amended rule applied at a concrete scope and path
with surrounding literal text. -/
theorem C7_unresolved_renders_empty_witness :
    renderSegs [("a", .num 1)] [.lit "x-", .mustache "missing", .lit "-y"] =
      "x-" ++ "-y" :=
  C7_unresolved_renders_empty.1 [("a", .num 1)] "x-" "missing" "-y" rfl

/-! ## C8: the handler scope merge-back -/

/-- C8: after a step handler runs, the merge-back of handler.ts lines
77-81 behaves exactly as claimed: (1) the scope object handed to the
handler shares a reference-held entry with the caller variable map, so
an in-place mutation of that object (a heap update) stays visible to the
caller; (2) a key the handler introduced that was absent from the scope
object before the call is copied back into the caller variable map;
(3) a pre-existing key — whatever the handler reassigned it to — is not
copied back: the caller binding is unchanged, and dereferencing it
through the mutated heap shows the mutation. -/
theorem C8_handler_scope_merge (vars cx : List (String × RVal))
    (sessions : List (String × String)) (res body : RVal)
    (vfh1 : List (String × RVal)) (h1 : Heap)
    (knew kold : String) (vnew : RVal) (r : Nat)
    (hnew : (akeys (varsForHandlerInitR vars sessions res body)).contains knew = false)
    (hnd : (vfh1.map Prod.fst).Nodup)
    (hmem : (knew, vnew) ∈ vfh1)
    (hold : alookup vars kold = some (RVal.ref r))
    (hsess : kold ∉ sessions.map Prod.fst)
    (hres : kold ≠ "res") (hbody : kold ≠ "body") :
    alookup (varsForHandlerInitR vars sessions res body) kold = some (RVal.ref r) ∧
    alookup (mergeNewKeys (akeys (varsForHandlerInitR vars sessions res body))
        vfh1 cx vars).2 knew = some vnew ∧
    alookup (mergeNewKeys (akeys (varsForHandlerInitR vars sessions res body))
        vfh1 cx vars).2 kold = some (RVal.ref r) ∧
    deref h1 ((alookup (mergeNewKeys (akeys (varsForHandlerInitR vars sessions res body))
        vfh1 cx vars).2 kold).getD (RVal.prim JVal.undef)) = h1 r := by
  have hA : alookup (aspread (aspread vars
        (sessions.map (fun p => (p.1, RVal.prim (JVal.str p.2)))))
        [("res", res), ("body", body)]) kold
      = alookup (aspread vars
          (sessions.map (fun p => (p.1, RVal.prim (JVal.str p.2))))) kold :=
    alookup_aspread_notin _ _ _ (by simp [hres, hbody])
  have hB : alookup (aspread vars
        (sessions.map (fun p => (p.1, RVal.prim (JVal.str p.2))))) kold
      = alookup vars kold := by
    refine alookup_aspread_notin _ _ _ (fun hmem2 => ?_)
    rw [List.map_map] at hmem2
    apply hsess
    rcases List.mem_map.mp hmem2 with ⟨p, hp, he⟩
    exact List.mem_map.mpr ⟨p, hp, he⟩
  have h3 : alookup (varsForHandlerInitR vars sessions res body) kold
      = some (RVal.ref r) := by
    unfold varsForHandlerInitR
    rw [hA, hB, hold]
  have hkc : (akeys (varsForHandlerInitR vars sessions res body)).contains kold = true :=
    contains_of_mem _ _ (alookup_some_mem _ _ _ h3)
  have h2 := mergeNewKeys_new (akeys (varsForHandlerInitR vars sessions res body))
    vfh1 knew vnew hnew hnd hmem cx vars
  have hOld := mergeNewKeys_old (akeys (varsForHandlerInitR vars sessions res body))
    vfh1 kold hkc cx vars
  refine ⟨h3, h2, ?_, ?_⟩
  · rw [hOld, hold]
  · rw [hOld, hold]; rfl

/-- C8 witness: the merge rules applied at a concrete scenario — caller
map `w8vars` holding `obj` by reference 1, handler scope `w8vfh`
reassigning `obj` and introducing `fresh`, heap `w8heap` after an
in-place mutation. -/
theorem C8_handler_scope_merge_witness :
    alookup (varsForHandlerInitR w8vars [] (RVal.prim JVal.undef)
        (RVal.prim JVal.undef)) "obj" = some (RVal.ref 1) ∧
    alookup (mergeNewKeys (akeys (varsForHandlerInitR w8vars []
        (RVal.prim JVal.undef) (RVal.prim JVal.undef)))
        w8vfh w8vars w8vars).2 "fresh" = some (RVal.prim (JVal.num 5)) ∧
    alookup (mergeNewKeys (akeys (varsForHandlerInitR w8vars []
        (RVal.prim JVal.undef) (RVal.prim JVal.undef)))
        w8vfh w8vars w8vars).2 "obj" = some (RVal.ref 1) ∧
    deref w8heap ((alookup (mergeNewKeys (akeys (varsForHandlerInitR w8vars []
        (RVal.prim JVal.undef) (RVal.prim JVal.undef)))
        w8vfh w8vars w8vars).2 "obj").getD (RVal.prim JVal.undef)) = w8heap 1 :=
  C8_handler_scope_merge w8vars w8vars [] (RVal.prim JVal.undef)
    (RVal.prim JVal.undef) w8vfh w8heap "fresh" "obj"
    (RVal.prim (JVal.num 5)) 1 (by decide) (by decide) (by simp [w8vfh])
    rfl (by simp) (by decide) (by decide)

/-! ## C9: the assign branch of extract -/

/-- C9: the `assign` branch of `extract` never reads a dotted path out
of the scope.  For the dotted assign `a.b` with scope variable `a`
holding an object with field `b`, the definedness guard looks up the
literal key "a.b", finds nothing, and throws `undefined_variable`
instead of returning the field value; and even when a variable literally
named "a.b" exists (so the guard passes), the first argument handed to
deepGet is the name substring "a" itself — a string — not the scope
object it names, so the claimed lookup of `a.b` in the scope never
happens. -/
theorem C9_assign_literal_key (jsonPath : String → JVal → Option JVal)
    (deepGet : JVal → String → JVal) (body : JVal)
    (hdrs : List (String × String)) :
    extract jsonPath deepGet "x" { assign := some "a.b" } body hdrs
        [("a", JVal.obj [("b", JVal.num 42)])]
      = .error "extract: var=x error=undefined_variable assign=a.b" ∧
    extract jsonPath deepGet "x" { assign := some "a.b" } body hdrs
        [("a", JVal.obj [("b", JVal.num 42)]), ("a.b", JVal.num 1)]
      = .ok (deepGet (JVal.str "a") "b") :=
  ⟨rfl, rfl⟩

/-! ## C10: absent handler arguments -/

/-- C10 counterexample: an absent step argument is not always resolved
as the claim says — a required argument with a truthy declared default
is left out entirely (the default is not applied, the handler sees
`undefined`), and an optional argument whose truthy default fails the
declared type check makes argument resolution error rather than pass
`undefined`. -/
theorem C10_counterexample :
    stepHandlerArgs
        { args := some [("x", { required := true, default := some (JVal.num 5) })],
          func := idHandlerFunc } none [] "h"
      = .ok [] ∧
    stepHandlerArgs
        { args := some [("x", { type := some "number",
                                default := some (JVal.obj [("y", JVal.num 1)]) })],
          func := idHandlerFunc } none [] "h"
      = .error "handler=h wrong type for arg=x expected type=number found=object" :=
  ⟨rfl, rfl⟩

/-- C10 (amended): for a registration declaring one argument and a step
supplying no parameters, argument resolution yields: no argument (the
handler sees `undefined`) when the argument is required — even when a
truthy default is declared — and likewise when the default is absent or
falsy; otherwise the truthy default is filled in and then, unless the
argument is opaque, template-evaluated and type-checked, so resolution
errors exactly when that evaluation does. -/
theorem C10_absent_arg_resolution (field : String) (cfg : ZHandlerArg)
    (f : HFunc) (cx : List (String × JVal)) (hDesc : String) :
    stepHandlerArgs { args := some [(field, cfg)], func := f } none cx hDesc
      = if cfg.required then .ok []
        else match cfg.default with
          | none => .ok []
          | some d =>
            if d.truthy then
              if cfg.opaqueArg then .ok [(field, d)]
              else (evalArgWithType d cx cfg.type
                  s!"handler={hDesc} wrong type for arg={field}").map
                (fun v => [(field, v)])
            else .ok [] := by
  by_cases hreq : cfg.required
  · simp [stepHandlerArgs, hreq, alookup, List.foldl, List.mapM, List.mapM.loop,
      pure, Except.pure]
  · rcases hdef : cfg.default with _ | d
    · simp [stepHandlerArgs, hreq, hdef, alookup, List.foldl, List.mapM,
        List.mapM.loop, pure, Except.pure]
    · by_cases htr : d.truthy
      · by_cases hop : cfg.opaqueArg
        · simp [stepHandlerArgs, hreq, hdef, htr, hop, alookup, aset, List.foldl,
            List.mapM, List.mapM.loop, Bind.bind, Except.bind, pure, Except.pure]
        · cases hev : evalArgWithType d cx cfg.type
              s!"handler={hDesc} wrong type for arg={field}" with
          | error e =>
              simp [stepHandlerArgs, hreq, hdef, htr, hop, alookup, aset,
                List.foldl, List.mapM, List.mapM.loop, Bind.bind, Except.bind,
                hev, Except.map]
          | ok v =>
              simp [stepHandlerArgs, hreq, hdef, htr, hop, alookup, aset,
                List.foldl, List.mapM, List.mapM.loop, Bind.bind, Except.bind,
                hev, Except.map, pure, Except.pure]
      · simp [stepHandlerArgs, hreq, hdef, htr, alookup, List.foldl, List.mapM,
          List.mapM.loop, pure, Except.pure]

end Zilla
